import Mathlib

/-!
# MeshAsGeomObject (src/generic/mesh_as_geometric_object.h) and neighbours

A shallow embedding of the class `MeshAsGeomObject`: its private helper
`build_it`, the accessors and the queries `locate_zeta` and `position`.
Further down: the status enumeration of `Multi_domain_functions` and the
ring-like parallel search, `get_dof_numbers_for_unknowns` of
`TFoepplvonKarmanDisplacementElement`, and the residuals and Jacobian of
`PolarNavierStokesTractionElement`.

Conventions of the embedding.

* A pointer to a `Data` object is its address (a natural number); a pointer
  that may be null or that has not been assigned yet is an `Option`.
* `unsigned` and `int` are 32 bits wide; the conversions between them are
  written out (`to_int`, `to_unsigned`).
* A `double` is carried as its 64-bit pattern; the class never does
  arithmetic on coordinates, it only passes them on.
* The three preprocessor switches of the header (`PARANOID`,
  `OOMPH_HAS_MPI`, `OOMPH_HAS_CGAL`) are the three fields of `BuildConfig`.
* A member function that can throw returns an `Outcome`; `build_it` returns
  the object as it stands when control leaves the function, together with
  the outcome.
-/

namespace oomph

/-! ## Collaborating types -/

/-- Compile-time configuration of the library: the preprocessor symbols the
header tests. -/
structure BuildConfig where
  PARANOID : Bool
  OOMPH_HAS_MPI : Bool
  OOMPH_HAS_CGAL : Bool
  deriving DecidableEq, Repr

/-- A C++ `double`, carried as its bit pattern. -/
structure Double where
  bits : Nat
  deriving DecidableEq, Repr

/-- The value `0.0` that `Vector<double>(n)` fills its entries with. -/
def Double.zero : Double := ⟨0⟩

/-- A C++ `unsigned`: a natural number below `2^32`. -/
abbrev unsigned : Type := Fin (2 ^ 32)

/-- Conversion `unsigned -> int` (32 bit, two's complement). -/
def to_int (u : unsigned) : Int :=
  if u.val < 2 ^ 31 then (u.val : Int) else (u.val : Int) - 2 ^ 32

/-- Conversion `static_cast<unsigned>(int)`. -/
def to_unsigned (i : Int) : Nat := (i % 2 ^ 32).toNat

/-- The part of a `FiniteElement` that the class uses: its identity, its
dimension `dim()`, the geometric `Data` it depends on (`ngeom_data()` is the
length of the list, `geom_data_pt(i)` its `i`-th entry) and its own
`position(t, s, r)`, which maps the timestep index, the local coordinate and
the incoming content of `r` to the outgoing content of `r`. -/
structure FiniteElement where
  addr : Nat
  dim : unsigned
  geom_data : List Nat
  position : Nat → List Double → List Double → List Double

/-- Number of geometric `Data` items of an element. -/
def FiniteElement.ngeom_data (el : FiniteElement) : Nat := el.geom_data.length

/-- An element stored in a mesh (a `GeneralisedElement*`): all the class
does with one is `dynamic_cast<FiniteElement*>`, whose result (null when the
cast fails) is the single field. -/
structure GeneralisedElement where
  as_finite_element : Option FiniteElement

/-- A node of a mesh: only `ndim()` is used. -/
structure Node where
  ndim : unsigned
  deriving DecidableEq, Repr

/-- The communicator of a distributed mesh: only `nproc()` is used
(an `int`). -/
structure OomphCommunicator where
  nproc : Int
  deriving DecidableEq, Repr

/-- The mesh interface the class consumes: the element and node storage,
whether the mesh has been distributed and its communicator (null when
absent). The last two are only looked at in a build with MPI. -/
structure Mesh where
  Element_pt : List GeneralisedElement
  Node_pt : List Node
  is_mesh_distributed : Bool
  communicator_pt : Option OomphCommunicator

/-- `Mesh::nelement()`. -/
def Mesh.nelement (m : Mesh) : Nat := m.Element_pt.length

/-- `Mesh::nnode()`. -/
def Mesh.nnode (m : Mesh) : Nat := m.Node_pt.length

/-- The enumeration `Sample_Point_Container_Type`. -/
inductive Sample_Point_Container_Type
  | UseRefineableBinArray
  | UseNonRefineableBinArray
  | UseCGALSamplePointContainer
  deriving DecidableEq, Repr

/-- A parameter object handed to the constructor, seen through a
`SamplePointContainerParameters*`: the mesh it refers to and, for each of
the three classes the code casts to, whether `dynamic_cast` to that class
succeeds. -/
structure SamplePointContainerParameters where
  mesh_pt : Mesh
  is_RefineableBinArrayParameters : Bool
  is_NonRefineableBinArrayParameters : Bool
  is_CGALSamplePointContainerParameters : Bool

/-- The errors raised through `OomphLibError`, one constructor per throw
site, named after the message. -/
inductive OomphLibError
  /-- Message "Wrong sample_point_container_parameters_pt". -/
  | wrong_sample_point_container_parameters_pt
  /-- Message "Unable to dynamic cast element: into a FiniteElement:
  GeomObject representation is not possible". -/
  | unable_to_dynamic_cast_element
  /-- Message "Sample_point_container_version". -/
  | sample_point_container_version
  /-- Message "Cannot locate zeta " followed by the entries `zeta[i]`,
  `i < nlagrangian()`. -/
  | cannot_locate_zeta (zeta : List Double)
  /-- Message "dposition() not implemented". -/
  | dposition_not_implemented
  /-- Message "Failed cast to FiniteElement*", raised by
  `Mesh::finite_element_pt` in a validated build. -/
  | failed_cast_to_finite_element
  deriving DecidableEq, Repr

/-- How a call ends: it returns a value, it throws an `OomphLibError`, or it
dereferences a null or unassigned pointer (undefined behaviour). -/
inductive Outcome (α : Type)
  | returned (a : α)
  | threw (e : OomphLibError)
  | undefined
  deriving DecidableEq

/-- Whether the outcome is a thrown `OomphLibError`. -/
def Outcome.is_error {α : Type} : Outcome α → Bool
  | .threw _ => true
  | _ => false

/-- The outcome with a function applied to the returned value. -/
def Outcome.map {α β : Type} (f : α → β) : Outcome α → Outcome β
  | .returned a => .returned (f a)
  | .threw e => .threw e
  | .undefined => .undefined

/-- The three classes of sample point container the constructor can build. -/
inductive SamplePointContainerClass
  | RefineableBinArray
  | NonRefineableBinArray
  | CGALSamplePointContainer
  deriving DecidableEq, Repr

/-- Modelled from the spec: the sample point containers of
sample_point_container.h (`RefineableBinArray`, `NonRefineableBinArray`,
`CGALSamplePointContainer`) are not among the sources. A container is its
dynamic type together with its `locate_zeta(zeta, sub_geom_object_pt, s)`:
given the point and the incoming content of `s` it yields the located
sub-object (null for "not found") and the outgoing content of `s`; the index
is read-only during a search and a failed search is a "not found" result,
not an exception. -/
structure SamplePointContainer where
  kind : SamplePointContainerClass
  locate_zeta : List Double → List Double → Option FiniteElement × List Double

/-- The constructors of the three container classes, one function per class:
what `new RefineableBinArray(parameters)` and its siblings build as search
function from the parameter object. -/
structure SamplePointContainerBackends where
  RefineableBinArray :
    SamplePointContainerParameters →
      List Double → List Double → Option FiniteElement × List Double
  NonRefineableBinArray :
    SamplePointContainerParameters →
      List Double → List Double → Option FiniteElement × List Double
  CGALSamplePointContainer :
    SamplePointContainerParameters →
      List Double → List Double → Option FiniteElement × List Double

/-! ## The class -/

/-- The data members of a `MeshAsGeomObject`, with the two dimensions it
inherits from `GeomObject`. A pointer member is `none` when null or not yet
assigned, and so is the version before its first assignment. -/
structure MeshAsGeomObject where
  NLagrangian : Nat
  Ndim : Nat
  Geom_data_pt : List Nat
  Sub_geom_object_pt : List (Option FiniteElement)
  Sample_point_container_pt : Option SamplePointContainer
  Communicator_pt : Option OomphCommunicator
  Mesh_pt : Option Mesh
  Sample_point_container_version : Option Sample_Point_Container_Type

/-- The object right after the base and member initialisers of a
constructor, before its body runs: `GeomObject()` sets both dimensions to
zero and the two vectors are empty; the remaining members have no
initialiser. -/
def MeshAsGeomObject.initial : MeshAsGeomObject :=
  { NLagrangian := 0, Ndim := 0, Geom_data_pt := [], Sub_geom_object_pt := [],
    Sample_point_container_pt := none, Communicator_pt := none,
    Mesh_pt := none, Sample_point_container_version := none }

/-- Modelled from the spec: `Mesh::finite_element_pt(e)` is a member of
`Mesh`, whose header mesh.h is not among the sources. It hands back element
`e` cast to a `FiniteElement*`; an element that cannot be treated as a
finite element is fatal in a validated build and raised immediately
(ElementCastFailure), while other builds hand back the null pointer. An
index past the end of the element storage is an invalid access. -/
def Mesh.finite_element_pt (cfg : BuildConfig) (m : Mesh) (e : Nat) :
    Outcome (Option FiniteElement) :=
  match m.Element_pt[e]? with
  | none => .undefined
  | some el =>
    match el.as_finite_element with
    | some fe => .returned (some fe)
    | none =>
      if cfg.PARANOID then .threw .failed_cast_to_finite_element
      else .returned none

/-- The first `if`/`else if` chain of `build_it`: the version chosen from
the dynamic type of the parameter object, or `none` when the final `else`
(the throw) is reached. The CGAL branch only exists in a build with CGAL. -/
def select_version (cfg : BuildConfig) (p : SamplePointContainerParameters) :
    Option Sample_Point_Container_Type :=
  if p.is_RefineableBinArrayParameters then
    some .UseRefineableBinArray
  else if p.is_NonRefineableBinArrayParameters then
    some .UseNonRefineableBinArray
  else if cfg.OOMPH_HAS_CGAL && p.is_CGALSamplePointContainerParameters then
    some .UseCGALSamplePointContainer
  else
    none

/-- The local array `int dim[2]` of `build_it` as it stands before the
reduction: `{0, 0}`, entry 0 overwritten by `finite_element_pt(0)->dim()`
when the mesh has an element, entry 1 by `node_pt(0)->ndim()` when it has a
node. -/
def local_dim (cfg : BuildConfig) (m : Mesh) : Outcome (Int × Int) :=
  let dim1 : Int :=
    match m.Node_pt with
    | [] => 0
    | nd :: _ => to_int nd.ndim
  if m.nelement ≠ 0 then
    match m.finite_element_pt cfg 0 with
    | .returned (some fe) => .returned (to_int fe.dim, dim1)
    | .returned none => .undefined
    | .threw err => .threw err
    | .undefined => .undefined
  else
    .returned (0, dim1)

/-- `MPI_Allreduce(&dim, &dim_reduce, 2, MPI_INT, MPI_MAX, comm)` as seen by
one process: the entry-wise maximum of its own array `own` and of the arrays
`others` contributed by the other processes of the communicator. -/
def MPI_Allreduce_MAX (own : Int × Int) (others : List (Int × Int)) : Int × Int :=
  others.foldl (fun acc d => (max acc.1 d.1, max acc.2 d.2)) own

/-- The block guarded by `OOMPH_HAS_MPI` that reconciles `dim` over the
processes: only for a distributed mesh with a non-null communicator of more
than one process. -/
def reduce_dim (cfg : BuildConfig) (m : Mesh) (comm : Option OomphCommunicator)
    (others : List (Int × Int)) (dim : Int × Int) : Int × Int :=
  if cfg.OOMPH_HAS_MPI then
    if m.is_mesh_distributed then
      match comm with
      | none => dim
      | some c => if c.nproc > 1 then MPI_Allreduce_MAX dim others else dim
    else dim
  else dim

/-- `std::vector::resize(n)` on a vector of pointers: the first `n` entries
are kept, missing ones are null. -/
def resize {α : Type} (l : List (Option α)) (n : Nat) : List (Option α) :=
  l.take n ++ List.replicate (n - l.length) none

/-- `std::set<Data*>::insert` on the set held as its strictly increasing
list of addresses: an address already present is not inserted again. -/
def set_insert (x : Nat) : List Nat → List Nat
  | [] => [x]
  | y :: ys =>
    if x < y then x :: y :: ys
    else if x = y then y :: ys
    else y :: set_insert x ys

/-- The inner loop over `i < ngeom_data()`: every geometric `Data` of one
element goes into the set. -/
def insert_geom_data (el : FiniteElement) (tmp_geom_data : List Nat) : List Nat :=
  el.geom_data.foldl (fun acc d => set_insert d acc) tmp_geom_data

/-- The loop over the elements, from index `e` on (`els` are the elements
`e, e+1, ...` of the mesh): the cast of element `e` is stored in
`Sub_geom_object_pt[e]`; a null result throws in a validated build and is
dereferenced otherwise; the geometric `Data` of the element is added to the
set. Returns the vector, the set and the outcome when the loop is left. -/
def element_loop (cfg : BuildConfig) :
    List GeneralisedElement → Nat → List (Option FiniteElement) → List Nat →
      List (Option FiniteElement) × List Nat × Outcome Unit
  | [], _, sub, tmp => (sub, tmp, .returned ())
  | el :: rest, e, sub, tmp =>
    let sub1 := sub.set e el.as_finite_element
    match el.as_finite_element with
    | none =>
      if cfg.PARANOID then (sub1, tmp, .threw .unable_to_dynamic_cast_element)
      else (sub1, tmp, .undefined)
    | some fe => element_loop cfg rest (e + 1) sub1 (insert_geom_data fe tmp)

/-- The copy loop `Geom_data_pt[count] = *it; count++` over the set. -/
def copy_set : List Nat → Nat → List Nat → List Nat
  | [], _, dst => dst
  | d :: rest, count, dst => copy_set rest (count + 1) (dst.set count d)

/-- `Vector<Data*>::resize(n)`: the first `n` entries are kept, missing ones
are null (address 0). -/
def resize_data (l : List Nat) (n : Nat) : List Nat :=
  l.take n ++ List.replicate (n - l.length) 0

/-- The final `switch` of `build_it`: the container built for the version,
`none` when the `default:` label (the throw) is reached. The CGAL case only
exists in a build with CGAL. -/
def new_container (cfg : BuildConfig) (lib : SamplePointContainerBackends)
    (p : SamplePointContainerParameters) :
    Sample_Point_Container_Type → Option SamplePointContainer
  | .UseRefineableBinArray =>
    some ⟨.RefineableBinArray, lib.RefineableBinArray p⟩
  | .UseNonRefineableBinArray =>
    some ⟨.NonRefineableBinArray, lib.NonRefineableBinArray p⟩
  | .UseCGALSamplePointContainer =>
    if cfg.OOMPH_HAS_CGAL then
      some ⟨.CGALSamplePointContainer, lib.CGALSamplePointContainer p⟩
    else none

/-- `MeshAsGeomObject::build_it`, run by one process on the object `g`.
`others` are the `dim` arrays the other processes of the communicator
contribute to the reduction. The result is the object when control leaves
the function and how it leaves. -/
def build_it (cfg : BuildConfig) (lib : SamplePointContainerBackends)
    (others : List (Int × Int)) (p : SamplePointContainerParameters)
    (g : MeshAsGeomObject) : MeshAsGeomObject × Outcome Unit :=
  let g1 := { g with Mesh_pt := some p.mesh_pt }
  match select_version cfg p with
  | none => (g1, .threw .wrong_sample_point_container_parameters_pt)
  | some v =>
    let g2 := { g1 with Sample_point_container_version := some v }
    let g3 :=
      if cfg.OOMPH_HAS_MPI then
        { g2 with Communicator_pt := p.mesh_pt.communicator_pt }
      else g2
    match local_dim cfg p.mesh_pt with
    | .threw err => (g3, .threw err)
    | .undefined => (g3, .undefined)
    | .returned dim0 =>
      let dim := reduce_dim cfg p.mesh_pt g3.Communicator_pt others dim0
      let g4 := { g3 with NLagrangian := to_unsigned dim.1, Ndim := to_unsigned dim.2 }
      let n_sub_object := p.mesh_pt.nelement
      let loop := element_loop cfg p.mesh_pt.Element_pt 0
        (resize g4.Sub_geom_object_pt n_sub_object) []
      let g5 := { g4 with Sub_geom_object_pt := loop.1 }
      match loop.2.2 with
      | .threw err => (g5, .threw err)
      | .undefined => (g5, .undefined)
      | .returned _ =>
        let tmp_geom_data := loop.2.1
        let ngeom := tmp_geom_data.length
        let g6 := { g5 with
          Geom_data_pt := copy_set tmp_geom_data 0 (resize_data g5.Geom_data_pt ngeom) }
        match new_container cfg lib p v with
        | none => (g6, .threw .sample_point_container_version)
        | some c => ({ g6 with Sample_point_container_pt := some c }, .returned ())

/-- The constructor taking the parameter object: `build_it` on the freshly
initialised object. -/
def MeshAsGeomObject.construct (cfg : BuildConfig) (lib : SamplePointContainerBackends)
    (others : List (Int × Int)) (p : SamplePointContainerParameters) :
    MeshAsGeomObject × Outcome Unit :=
  build_it cfg lib others p MeshAsGeomObject.initial

/-- `nlagrangian()` of the base class. -/
def MeshAsGeomObject.nlagrangian (g : MeshAsGeomObject) : Nat := g.NLagrangian

/-- `ndim()` of the base class. -/
def MeshAsGeomObject.ndim (g : MeshAsGeomObject) : Nat := g.Ndim

/-- `nelement()`: the size of the sub-object vector. -/
def MeshAsGeomObject.nelement (g : MeshAsGeomObject) : Nat :=
  g.Sub_geom_object_pt.length

/-- `finite_element_pt(e)`: entry `e` of the sub-object vector (no entry
past its end). -/
def MeshAsGeomObject.finite_element_pt (g : MeshAsGeomObject) (e : Nat) :
    Option (Option FiniteElement) :=
  g.Sub_geom_object_pt[e]?

/-- `sample_point_container_version()`. -/
def MeshAsGeomObject.sample_point_container_version (g : MeshAsGeomObject) :
    Option Sample_Point_Container_Type :=
  g.Sample_point_container_version

/-- `sample_point_container_pt()`. -/
def MeshAsGeomObject.sample_point_container_pt (g : MeshAsGeomObject) :
    Option SamplePointContainer :=
  g.Sample_point_container_pt

/-- `ngeom_data()`: the size of the geometric-data vector. -/
def MeshAsGeomObject.ngeom_data (g : MeshAsGeomObject) : Nat :=
  g.Geom_data_pt.length

/-- `geom_data_pt(j)`: entry `j` of the geometric-data vector (no entry past
its end). -/
def MeshAsGeomObject.geom_data_pt (g : MeshAsGeomObject) (j : Nat) : Option Nat :=
  g.Geom_data_pt[j]?

/-- What `locate_zeta` hands back on normal return: the warnings it issued,
the sub-object pointer and the content of `s`. -/
structure LocateResult where
  warnings : List String
  sub_geom_object_pt : Option FiniteElement
  s : List Double

/-- The located pair of a result: sub-object pointer and local coordinate. -/
def LocateResult.located (res : LocateResult) : Option FiniteElement × List Double :=
  (res.sub_geom_object_pt, res.s)

/-- `MeshAsGeomObject::locate_zeta(zeta, sub_geom_object_pt, s,
use_coordinate_as_initial_guess)`: in a validated build a warning is issued
when the flag is set; the search is the container's. -/
def MeshAsGeomObject.locate_zeta (cfg : BuildConfig) (g : MeshAsGeomObject)
    (zeta : List Double) (s : List Double)
    (use_coordinate_as_initial_guess : Bool) : Outcome LocateResult :=
  let warnings :=
    if cfg.PARANOID && use_coordinate_as_initial_guess then
      ["Ignoring the use_coordinate_as_initial_guess argument."]
    else []
  match g.Sample_point_container_pt with
  | none => .undefined
  | some c =>
    let found := c.locate_zeta zeta s
    .returned ⟨warnings, found.1, found.2⟩

/-- `MeshAsGeomObject::position(t, zeta, r)`: locate zeta starting from a
zero-filled `s` of size `nlagrangian()`. When nothing is found the error
message is built from `zeta[i]` for every `i < nlagrangian()`, which reads
past the end of a zeta with fewer entries; then the mesh is written to a
file through `Mesh_pt` (the file itself is not modelled) and the error is
thrown. Otherwise the sub-object's `position(t, s, r)` is called. The result
is the content of `r` on return. -/
def MeshAsGeomObject.position (cfg : BuildConfig) (g : MeshAsGeomObject)
    (t : Nat) (zeta : List Double) (r : List Double) : Outcome (List Double) :=
  let n_lagrangian := g.nlagrangian
  let s := List.replicate n_lagrangian Double.zero
  match g.locate_zeta cfg zeta s false with
  | .threw err => .threw err
  | .undefined => .undefined
  | .returned res =>
    match res.sub_geom_object_pt with
    | none =>
      if zeta.length < n_lagrangian then .undefined
      else
        match g.Mesh_pt with
        | none => .undefined
        | some _ => .threw (.cannot_locate_zeta (zeta.take n_lagrangian))
    | some sub => .returned (sub.position t res.s r)

/-- The overload `position(zeta, r)`: the current timestep, `t = 0`. -/
def MeshAsGeomObject.position_now (cfg : BuildConfig) (g : MeshAsGeomObject)
    (zeta : List Double) (r : List Double) : Outcome (List Double) :=
  g.position cfg 0 zeta r

/-- All geometric `Data` pointers of the elements of a mesh, element after
element, repetitions included. -/
def Mesh.geom_data (m : Mesh) : List Nat :=
  (m.Element_pt.map (fun el =>
    match el.as_finite_element with
    | some fe => fe.geom_data
    | none => [])).flatten

/-- Every element of the mesh can be cast to a `FiniteElement`. -/
def all_finite_elements (m : Mesh) : Prop :=
  ∀ el ∈ m.Element_pt, el.as_finite_element.isSome = true

instance (m : Mesh) : Decidable (all_finite_elements m) := by
  unfold all_finite_elements
  infer_instance

/-! ## Parallel runs -/

/-- What a process contributes to the reduction of `build_it`, if it gets
there: its local `dim` array, provided the parameter object is recognised,
the local dimensions could be read, and the mesh is distributed with a
non-null communicator of more than one process in a build with MPI. -/
def allreduce_contribution (cfg : BuildConfig) (p : SamplePointContainerParameters) :
    Option (Int × Int) :=
  match select_version cfg p, local_dim cfg p.mesh_pt with
  | some _, .returned dim =>
    if cfg.OOMPH_HAS_MPI && p.mesh_pt.is_mesh_distributed then
      match p.mesh_pt.communicator_pt with
      | none => none
      | some c => if c.nproc > 1 then some dim else none
    else none
  | _, _ => none

/-- A parallel run: process `i` executes `build_it` on `params[i]`, the
parameter object holding its partition of the mesh. The `dim` arrays it
receives in the reduction are those contributed by the other processes. -/
def others_of (cfg : BuildConfig) (params : List SamplePointContainerParameters)
    (i : Nat) : List (Int × Int) :=
  (params.eraseIdx i).filterMap (allreduce_contribution cfg)

/-- The pair `D` is the entry-wise maximum, over all processes of a parallel
run, of the local `dim` arrays: no local entry exceeds it and each of its
entries is the local entry of some process. -/
def is_max_of_local_dims (cfg : BuildConfig) (params : List SamplePointContainerParameters)
    (D : Int × Int) : Prop :=
  (∀ p ∈ params, ∀ d, local_dim cfg p.mesh_pt = .returned d → d.1 ≤ D.1 ∧ d.2 ≤ D.2) ∧
  (∃ p ∈ params, ∃ d, local_dim cfg p.mesh_pt = .returned d ∧ d.1 = D.1) ∧
  (∃ p ∈ params, ∃ d, local_dim cfg p.mesh_pt = .returned d ∧ d.2 = D.2)

/-! ## Sample data -/

/-- A finite element with the given address, dimension and geometric data,
whose position is its local coordinate. -/
def sample_element (addr : Nat) (dim : unsigned) (data : List Nat) : FiniteElement :=
  { addr := addr, dim := dim, geom_data := data, position := fun _ s _ => s }

/-- A search that finds element `k` of the mesh when the first coordinate of
zeta has bit pattern `k`, with local coordinate zeta, and nothing otherwise. -/
def sample_search (p : SamplePointContainerParameters) (zeta s : List Double) :
    Option FiniteElement × List Double :=
  match zeta with
  | [] => (none, s)
  | z :: _ =>
    match p.mesh_pt.Element_pt[z.bits]? with
    | some el =>
      match el.as_finite_element with
      | some fe => (some fe, zeta)
      | none => (none, s)
    | none => (none, s)

/-- Backends that all use `sample_search`. -/
def sample_backends : SamplePointContainerBackends :=
  { RefineableBinArray := sample_search,
    NonRefineableBinArray := sample_search,
    CGALSamplePointContainer := sample_search }

/-- A validated build with MPI and without CGAL. -/
def sample_config : BuildConfig :=
  { PARANOID := true, OOMPH_HAS_MPI := true, OOMPH_HAS_CGAL := false }

/-- Two two-dimensional elements sharing the `Data` at address 11, and three
nodes in the plane. -/
def sample_mesh : Mesh :=
  { Element_pt := [⟨some (sample_element 100 2 [10, 11])⟩,
                   ⟨some (sample_element 101 2 [11, 12])⟩],
    Node_pt := [⟨2⟩, ⟨2⟩, ⟨2⟩],
    is_mesh_distributed := false,
    communicator_pt := none }

/-- Parameters of refineable type for `sample_mesh`. -/
def sample_refineable_parameters : SamplePointContainerParameters :=
  { mesh_pt := sample_mesh, is_RefineableBinArrayParameters := true,
    is_NonRefineableBinArrayParameters := false,
    is_CGALSamplePointContainerParameters := false }

/-- Parameters of non-refineable type for `sample_mesh`. -/
def sample_non_refineable_parameters : SamplePointContainerParameters :=
  { mesh_pt := sample_mesh, is_RefineableBinArrayParameters := false,
    is_NonRefineableBinArrayParameters := true,
    is_CGALSamplePointContainerParameters := false }

/-- A parameter object of a type the constructor does not know. -/
def sample_unknown_parameters : SamplePointContainerParameters :=
  { mesh_pt := sample_mesh, is_RefineableBinArrayParameters := false,
    is_NonRefineableBinArrayParameters := false,
    is_CGALSamplePointContainerParameters := false }

/-- The partition of a distributed mesh held by a process that owns two
elements and three nodes; the communicator has two processes. -/
def sample_partition_full : Mesh :=
  { Element_pt := [⟨some (sample_element 100 2 [10, 11])⟩,
                   ⟨some (sample_element 101 2 [11, 12])⟩],
    Node_pt := [⟨3⟩, ⟨3⟩, ⟨3⟩],
    is_mesh_distributed := true,
    communicator_pt := some ⟨2⟩ }

/-- The partition held by a process that owns no element and no node. -/
def sample_partition_empty : Mesh :=
  { Element_pt := [], Node_pt := [],
    is_mesh_distributed := true,
    communicator_pt := some ⟨2⟩ }

/-- The parameter objects of the two processes of the sample parallel run. -/
def sample_parallel_parameters : List SamplePointContainerParameters :=
  [{ mesh_pt := sample_partition_full, is_RefineableBinArrayParameters := true,
     is_NonRefineableBinArrayParameters := false,
     is_CGALSamplePointContainerParameters := false },
   { mesh_pt := sample_partition_empty, is_RefineableBinArrayParameters := true,
     is_NonRefineableBinArrayParameters := false,
     is_CGALSamplePointContainerParameters := false }]

/-- The object constructed for `sample_mesh` with refineable parameters. -/
def sample_object : MeshAsGeomObject :=
  (MeshAsGeomObject.construct sample_config sample_backends []
    sample_refineable_parameters).1

/-- A mesh whose second element is not a finite element. -/
def sample_mesh_with_foreign_element : Mesh :=
  { Element_pt := [⟨some (sample_element 100 2 [10, 11])⟩, ⟨none⟩,
                   ⟨some (sample_element 102 2 [12])⟩],
    Node_pt := [⟨2⟩, ⟨2⟩],
    is_mesh_distributed := false,
    communicator_pt := none }

/-- Parameters of refineable type for `sample_mesh_with_foreign_element`. -/
def sample_foreign_parameters : SamplePointContainerParameters :=
  { mesh_pt := sample_mesh_with_foreign_element,
    is_RefineableBinArrayParameters := true,
    is_NonRefineableBinArrayParameters := false,
    is_CGALSamplePointContainerParameters := false }

/-! ## Multi_domain_functions (src/generic/multi_domain.h) -/

namespace Multi_domain_functions

/-- The enumerators for the element status in the location procedure. -/
inductive Element_status
  | New
  | Exists
  | Not_found
  deriving DecidableEq, Repr

/-- The declaration `enum{ New, Exists, Not_found};`: the enumerators in the
order in which the header lists them. -/
def enum_declaration : List Element_status := [.New, .Exists, .Not_found]

/-- The value of an enumerator of an enumeration without initialisers: its
position in the declaration, counted from zero. -/
def Element_status.value (e : Element_status) : Nat := enum_declaration.indexOf e

/-- The codes as the comment on `Located_element_status` words them: newly
created (2), already exists (1), not on the current processor either (0). -/
def documented_status_code : Element_status → Nat
  | .New => 2
  | .Exists => 1
  | .Not_found => 0

end Multi_domain_functions

/-! ## MeshAsGeomObject: a call seen from outside -/

/-- A call of `locate_zeta` together with the object it leaves behind: the
member function assigns to no member, and the search of the container does
not alter the container (see `SamplePointContainer`). -/
def MeshAsGeomObject.locate_zeta_call (cfg : BuildConfig) (g : MeshAsGeomObject)
    (zeta : List Double) (s : List Double)
    (use_coordinate_as_initial_guess : Bool) :
    MeshAsGeomObject × Outcome LocateResult :=
  (g, g.locate_zeta cfg zeta s use_coordinate_as_initial_guess)

/-! ## The ring-like parallel search -/

namespace DistributedZetaSearch

/-- Modelled from the spec: a pending query of the distributed search (the
routines of multi_domain.h that run it are declared there but defined
elsewhere). It is a zeta tuple awaiting resolution, tagged with the
partition it originates from; `holder` is the partition that searches it
next (for a located query: the partition that found it). -/
structure PendingQuery where
  origin : Nat
  holder : Nat
  zeta : List Double
  deriving DecidableEq, Repr

/-- Modelled from the spec: the state of one coupling setup. `pending` are
the queries not yet resolved, `located` the results that flowed back to
their origin, `exchanges` the number of ring steps made so far. -/
structure SearchState where
  pending : List PendingQuery
  located : List PendingQuery
  exchanges : Nat
  deriving DecidableEq, Repr

/-- Modelled from the spec: LocalSearch and RemoteSearch with Merge. Every
pending query is searched on the partition that holds it (`locates j zeta`
says whether `locate_zeta` on partition `j` finds zeta); what is found
flows back as located, what is not stays pending. -/
def search (locates : Nat → List Double → Bool) (st : SearchState) : SearchState :=
  { pending := st.pending.filter (fun q => !locates q.holder q.zeta),
    located := st.located ++ st.pending.filter (fun q => locates q.holder q.zeta),
    exchanges := st.exchanges }

/-- Modelled from the spec: Exchange. Partition `i` sends what it could not
resolve to partition `i+1 mod N` and receives from `i-1 mod N`; this is one
ring step. -/
def exchange (N : Nat) (st : SearchState) : SearchState :=
  { pending := st.pending.map (fun q => { q with holder := (q.holder + 1) % N }),
    located := st.located,
    exchanges := st.exchanges + 1 }

/-- Modelled from the spec: Exchange, RemoteSearch and Merge repeated until
converged (nothing pending) or exhausted (`steps` ring steps left to make
are used up). -/
def ring_steps (N : Nat) (locates : Nat → List Double → Bool) :
    Nat → SearchState → SearchState
  | 0, st => st
  | steps + 1, st =>
    if st.pending.isEmpty then st
    else ring_steps N locates steps (search locates (exchange N st))

/-- Modelled from the spec: the whole search over `N` partitions for the
queries `(origin, zeta)`: LocalSearch on the partition of origin, then at
most `N - 1` ring steps, then Done; what is still pending is reported as
unresolved. -/
def run (N : Nat) (locates : Nat → List Double → Bool)
    (queries : List (Nat × List Double)) : SearchState :=
  ring_steps N locates (N - 1)
    (search locates
      { pending := queries.map (fun q => ⟨q.1, q.1, q.2⟩), located := [], exchanges := 0 })

/-- What holds after `k` ring steps: a pending query sits `k` partitions
after its origin and was found on none of the partitions visited so far; a
located query was found on a partition of the ring; every query of the
input is still there, pending or located. -/
def invariant (N : Nat) (locates : Nat → List Double → Bool)
    (queries : List (Nat × List Double)) (k : Nat)
    (st : SearchState) : Prop :=
  (∀ r ∈ st.pending, r.holder = (r.origin + k) % N ∧
    ∀ m ≤ k, locates ((r.origin + m) % N) r.zeta = false) ∧
  (∀ r ∈ st.located, r.holder < N ∧ locates r.holder r.zeta = true) ∧
  (∀ q ∈ queries,
    (∃ r ∈ st.located, r.origin = q.1 ∧ r.zeta = q.2) ∨
    (∃ r ∈ st.pending, r.origin = q.1 ∧ r.zeta = q.2)) ∧
  st.exchanges = k

/-- Sample: partition `j` finds exactly the points whose first coordinate
has bit pattern `j`. -/
def sample_locates (j : Nat) (zeta : List Double) : Bool :=
  match zeta with
  | [] => false
  | z :: _ => z.bits == j

/-- Sample: queries on three partitions; the last one is found nowhere. -/
def sample_queries : List (Nat × List Double) :=
  [(0, [⟨0⟩]), (0, [⟨2⟩]), (1, [⟨0⟩]), (2, [⟨7⟩])]

end DistributedZetaSearch

/-! ## TFoepplvonKarmanDisplacementElement
(src/foeppl_von_karman/Tfoeppl_von_karman_displacement_elements.h) -/

namespace FoepplvonKarman

/-- A node of the element as `get_dof_numbers_for_unknowns` sees it: the
mesh boundaries it lies on. -/
structure Node where
  boundaries : List Nat
  deriving DecidableEq, Repr

/-- `Node::is_on_boundary(b)`: whether the node lies on boundary `b`. -/
def Node.is_on_boundary (nd : Node) (b : Nat) : Bool := decide (b ∈ nd.boundaries)

/-- Whether the node lies on any boundary of the mesh at all. -/
def Node.is_boundary_node (nd : Node) : Bool := !nd.boundaries.isEmpty

/-- The part of the element the function reads: `nnode()`, `node_pt(n)`,
`nodal_local_eqn(n, v)` (an `int`, negative for a pinned value) and
`eqn_number(local_eqn)` (an `unsigned long`, here 64 bits wide). -/
structure TFoepplvonKarmanDisplacementElement where
  nnode : Nat
  node_pt : Nat → Node
  nodal_local_eqn : Nat → Nat → Int
  eqn_number : Nat → Nat

/-- `ndof_types()`. -/
def ndof_types : Nat := 5

/-- Assignment of an `unsigned long` to `dof_lookup.first`, a member of the
temporary `std::pair<unsigned,unsigned>`: conversion to 32 bits. -/
def to_pair_first (global_eqn : Nat) : Nat := global_eqn % 2 ^ 32

/-- The body of the loop over the nodes, for node `n`: the four blocks for
the nodal values 0 (w), 1 (Laplacian), 2 (U_x) and 3 (U_y), each adding a
pair at the front of the list unless the value is pinned. -/
def node_body (el : TFoepplvonKarmanDisplacementElement) (n : Nat)
    (dof_lookup_list : List (Nat × Nat)) : List (Nat × Nat) :=
  let list0 :=
    if el.nodal_local_eqn n 0 ≥ 0 then
      (to_pair_first (el.eqn_number (el.nodal_local_eqn n 0).toNat), 2) ::
        dof_lookup_list
    else dof_lookup_list
  let list1 :=
    if el.nodal_local_eqn n 1 ≥ 0 then
      (to_pair_first (el.eqn_number (el.nodal_local_eqn n 1).toNat),
        if (el.node_pt n).is_on_boundary 0 || (el.node_pt n).is_on_boundary 1 then 1
        else 0) :: list0
    else list0
  let list2 :=
    if el.nodal_local_eqn n 2 ≥ 0 then
      (to_pair_first (el.eqn_number (el.nodal_local_eqn n 2).toNat), 3) :: list1
    else list1
  if el.nodal_local_eqn n 3 ≥ 0 then
    (to_pair_first (el.eqn_number (el.nodal_local_eqn n 3).toNat), 4) :: list2
  else list2

/-- `get_dof_numbers_for_unknowns(dof_lookup_list)`: the loop over the nodes
`n = 0, ..., nnode()-1`; the result is the list on return. -/
def get_dof_numbers_for_unknowns (el : TFoepplvonKarmanDisplacementElement)
    (dof_lookup_list : List (Nat × Nat)) : List (Nat × Nat) :=
  (List.range el.nnode).foldl (fun acc n => node_body el n acc) dof_lookup_list

/-- The dof type of nodal value `v` at node `n`: 2 for w, 0 or 1 for the
Laplacian (1 when the node is on boundary 0 or on boundary 1), 3 for U_x and
4 for U_y. -/
def dof_type_of_value (el : TFoepplvonKarmanDisplacementElement) (n v : Nat) : Nat :=
  match v with
  | 0 => 2
  | 1 => if (el.node_pt n).is_on_boundary 0 || (el.node_pt n).is_on_boundary 1 then 1 else 0
  | 2 => 3
  | _ => 4

/-- The pair the function writes for the unknown `(n, v)`. -/
def written_pair (el : TFoepplvonKarmanDisplacementElement) (nv : Nat × Nat) : Nat × Nat :=
  (to_pair_first (el.eqn_number (el.nodal_local_eqn nv.1 nv.2).toNat),
    dof_type_of_value el nv.1 nv.2)

/-- The unpinned values of node `n`, in the order 0, 1, 2, 3. -/
def unpinned_values (el : TFoepplvonKarmanDisplacementElement) (n : Nat) :
    List (Nat × Nat) :=
  ([0, 1, 2, 3].map (fun v => (n, v))).filter (fun nv => el.nodal_local_eqn nv.1 nv.2 ≥ 0)

/-- All unpinned unknowns `(n, v)` of the element, node after node. -/
def unpinned_unknowns (el : TFoepplvonKarmanDisplacementElement) : List (Nat × Nat) :=
  ((List.range el.nnode).map (unpinned_values el)).flatten

/-- Sample: one node on boundary 2 only, all four values free; the value w
has a global equation number beyond 32 bits. -/
def sample_element : TFoepplvonKarmanDisplacementElement :=
  { nnode := 1,
    node_pt := fun _ => ⟨[2]⟩,
    nodal_local_eqn := fun _ v => v,
    eqn_number := fun i => if i = 0 then 2 ^ 32 + 5 else 100 + i }

end FoepplvonKarman

/-! ## PolarNavierStokesTractionElement
(src/polar_navier_stokes/polar_fluid_traction_elements.h)

The arithmetic of the element is exact: a `double` is a rational number. -/

namespace PolarNavierStokes

/-- The data `fill_in_generic_residual_contribution` reads from the element
and its collaborators: the number of nodes, `Dim`, the continuous time, the
integration scheme (`nweight()`, `weight(ipt)`), the shape functions and
the Jacobian of the mapping at the knots, nodal values and positions, the
local equation numbers of the velocities, the traction function pointer
(`none` when null), `*Alpha_pt`, the value of the external pressure `Data`
(`none` when `Pext_data_pt` is null), its local equation number
`external_local_eqn(External_data_number_of_Pext, 0)`, `Boundary`, `Eta`. -/
structure PolarNavierStokesTractionElement where
  nnode : Nat
  Dim : Nat
  time : ℚ
  nweight : Nat
  weight : Nat → ℚ
  shape_at_knot : Nat → Nat → ℚ
  J_eulerian_at_knot : Nat → ℚ
  nodal_value : Nat → Nat → ℚ
  nodal_position : Nat → Nat → ℚ
  u_local_eqn : Nat → Nat → Int
  Traction_fct_pt : Option (ℚ → List ℚ → List ℚ → List ℚ)
  Alpha : ℚ
  Pext_data_pt : Option ℚ
  external_local_eqn : Int
  Boundary : Int
  Eta : ℚ

/-- The arguments `residuals`, `jacobian` and `mass_matrix`, indexed by
local equation numbers. -/
structure Contribution where
  residuals : Nat → ℚ
  jacobian : Nat → Nat → ℚ
  mass_matrix : Nat → Nat → ℚ

/-- `v[k] += c`. -/
def add_entry (v : Nat → ℚ) (k : Nat) (c : ℚ) (i : Nat) : ℚ :=
  if i = k then v i + c else v i

/-- `v[k] -= c`. -/
def sub_entry (v : Nat → ℚ) (k : Nat) (c : ℚ) (i : Nat) : ℚ :=
  if i = k then v i - c else v i

/-- `m(r, k) += c`. -/
def add_matrix_entry (m : Nat → Nat → ℚ) (r k : Nat) (c : ℚ) (i j : Nat) : ℚ :=
  if i = r ∧ j = k then m i j + c else m i j

/-- `m(r, k) -= c`. -/
def sub_matrix_entry (m : Nat → Nat → ℚ) (r k : Nat) (c : ℚ) (i j : Nat) : ℚ :=
  if i = r ∧ j = k then m i j - c else m i j

/-- `get_traction(time, x, result)`: zero in the first `Dim` entries when the
function pointer is null, the user's function otherwise. -/
def get_traction (el : PolarNavierStokesTractionElement) (time : ℚ) (x : List ℚ)
    (result : List ℚ) : List ℚ :=
  match el.Traction_fct_pt with
  | none => List.replicate (min el.Dim result.length) 0 ++ result.drop el.Dim
  | some f => f time x result

/-- The local equation number of the external pressure: -1 when no external
pressure has been passed to the element. -/
def pext_local_eqn (el : PolarNavierStokesTractionElement) : Int :=
  match el.Pext_data_pt with
  | none => -1
  | some _ => el.external_local_eqn

/-- The external pressure: 0.0 when no external pressure has been passed. -/
def pext (el : PolarNavierStokesTractionElement) : ℚ :=
  match el.Pext_data_pt with
  | none => 0
  | some value => value

/-- The vector `interpolated_u` (for `field = nodal_value`) or
`interpolated_x` (for `field = nodal_position`) at a knot: entry `i < Dim`
starts at 0.0 and collects `field(l, i) * psif[l]` over the nodes. -/
def interpolate (el : PolarNavierStokesTractionElement) (field : Nat → Nat → ℚ)
    (ipt : Nat) : List ℚ :=
  (List.range el.Dim).map (fun i =>
    (List.range el.nnode).foldl (fun acc l => acc + field l i * el.shape_at_knot ipt l) 0)

/-- Entry 0 of a vector. -/
def entry0 (v : List ℚ) : ℚ := v.headD 0

/-- The loop over `l2` in the velocity equation of test function `l`:
`jacobian(local_eqn, local_unknown) -= ...` for every unpinned radial
velocity. -/
def velocity_jacobian_loop (el : PolarNavierStokesTractionElement) (ipt l : Nat)
    (local_eqn : Int) (x0 W : ℚ) (jacobian : Nat → Nat → ℚ) : Nat → Nat → ℚ :=
  (List.range el.nnode).foldl (fun jac l2 =>
    let local_unknown := el.u_local_eqn l2 0
    if local_unknown ≥ 0 then
      sub_matrix_entry jac local_eqn.toNat local_unknown.toNat
        ((el.Boundary : ℚ) * el.Eta * 3 * (el.shape_at_knot ipt l2 / x0) *
          el.shape_at_knot ipt l * x0 * el.Alpha * W)
    else jac) jacobian

/-- The loop over `l2` in the equation of the external pressure:
`jacobian(pext_local_eqn, local_unknown) += ...` for every unpinned radial
velocity. -/
def pressure_jacobian_loop (el : PolarNavierStokesTractionElement) (ipt : Nat)
    (x0 W : ℚ) (jacobian : Nat → Nat → ℚ) : Nat → Nat → ℚ :=
  (List.range el.nnode).foldl (fun jac l2 =>
    let local_unknown := el.u_local_eqn l2 0
    if local_unknown ≥ 0 then
      add_matrix_entry jac (pext_local_eqn el).toNat local_unknown.toNat
        (el.shape_at_knot ipt l2 * x0 * el.Alpha * W)
    else jac) jacobian

/-- The body of the loop over the test functions, for test function `l`:
only the equation of the radial velocity (`i = 0`) is altered. -/
def test_function_body (el : PolarNavierStokesTractionElement) (flag ipt : Nat)
    (u0 x0 W : ℚ) (l : Nat) (st : Contribution) : Contribution :=
  let local_eqn := el.u_local_eqn l 0
  if local_eqn ≥ 0 then
    let residuals1 := sub_entry st.residuals local_eqn.toNat
      ((el.Boundary : ℚ) * el.Eta * 3 * (u0 / x0) * el.shape_at_knot ipt l * x0 *
        el.Alpha * W)
    let residuals2 := add_entry residuals1 local_eqn.toNat
      (pext el * el.shape_at_knot ipt l * x0 * el.Alpha * W)
    if flag ≠ 0 then
      let jacobian1 := velocity_jacobian_loop el ipt l local_eqn x0 W st.jacobian
      let jacobian2 :=
        if pext_local_eqn el ≥ 0 then
          add_matrix_entry jacobian1 local_eqn.toNat (pext_local_eqn el).toNat
            (el.shape_at_knot ipt l * x0 * el.Alpha * W)
        else jacobian1
      { residuals := residuals2, jacobian := jacobian2, mass_matrix := st.mass_matrix }
    else
      { residuals := residuals2, jacobian := st.jacobian, mass_matrix := st.mass_matrix }
  else st

/-- The block after the loop over the test functions: the additional
residual for the mass flux, the equation of the external pressure. -/
def mass_flux_body (el : PolarNavierStokesTractionElement) (flag ipt : Nat)
    (u0 x0 W : ℚ) (st : Contribution) : Contribution :=
  if pext_local_eqn el ≥ 0 then
    let residuals1 := add_entry st.residuals (pext_local_eqn el).toNat
      (u0 * x0 * el.Alpha * W)
    if flag ≠ 0 then
      { residuals := residuals1,
        jacobian := pressure_jacobian_loop el ipt x0 W st.jacobian,
        mass_matrix := st.mass_matrix }
    else
      { residuals := residuals1, jacobian := st.jacobian, mass_matrix := st.mass_matrix }
  else st

/-- The body of the loop over the integration points. The traction is
obtained from `get_traction` at the interpolated position; as in the source,
no term of the residuals or of the Jacobian reads it. -/
def integration_point_body (el : PolarNavierStokesTractionElement) (flag ipt : Nat)
    (st : Contribution) : Contribution :=
  let w := el.weight ipt
  let J := el.J_eulerian_at_knot ipt
  let W := w * J
  let interpolated_x := interpolate el el.nodal_position ipt
  let interpolated_u := interpolate el el.nodal_value ipt
  let traction := get_traction el el.time interpolated_x (List.replicate el.Dim 0)
  let st1 := (List.range el.nnode).foldl
    (fun acc l =>
      test_function_body el flag ipt (entry0 interpolated_u) (entry0 interpolated_x) W l acc)
    st
  mass_flux_body el flag ipt (entry0 interpolated_u) (entry0 interpolated_x) W st1

/-- `fill_in_generic_residual_contribution(residuals, jacobian, mass_matrix,
flag)`: the loop over the integration points; the result holds the three
arguments on return. -/
def fill_in_generic_residual_contribution (el : PolarNavierStokesTractionElement)
    (st : Contribution) (flag : Nat) : Contribution :=
  (List.range el.nweight).foldl (fun acc ipt => integration_point_body el flag ipt acc) st

/-- `fill_in_contribution_to_residuals(residuals)`: flag 0, both matrix
arguments are the dummy matrix. -/
def fill_in_contribution_to_residuals (el : PolarNavierStokesTractionElement)
    (residuals : Nat → ℚ) (dummy_matrix : Nat → Nat → ℚ) : Contribution :=
  fill_in_generic_residual_contribution el
    { residuals := residuals, jacobian := dummy_matrix, mass_matrix := dummy_matrix } 0

/-- `fill_in_contribution_to_jacobian(residuals, jacobian)`: flag 1. -/
def fill_in_contribution_to_jacobian (el : PolarNavierStokesTractionElement)
    (residuals : Nat → ℚ) (jacobian dummy_matrix : Nat → Nat → ℚ) : Contribution :=
  fill_in_generic_residual_contribution el
    { residuals := residuals, jacobian := jacobian, mass_matrix := dummy_matrix } 1

/-- The element with the unknown of local equation number `j` raised by `h`:
every nodal value whose local equation number is `j`, and the external
pressure when its local equation number is `j`. -/
def perturb (el : PolarNavierStokesTractionElement) (j : Nat) (h : ℚ) :
    PolarNavierStokesTractionElement :=
  { el with
    nodal_value := fun l i =>
      el.nodal_value l i + (if el.u_local_eqn l i = (j : Int) then h else 0),
    Pext_data_pt := el.Pext_data_pt.map
      (fun value => value + (if el.external_local_eqn = (j : Int) then h else 0)) }

/-- The contribution of all zeros. -/
def zero_contribution : Contribution :=
  { residuals := fun _ => 0, jacobian := fun _ _ => 0, mass_matrix := fun _ _ => 0 }

/-- Sample: a two-node face element at radius 2 with one integration point;
both radial velocities are free (equations 0 and 1), the external pressure
is equation 2. No traction function is set. -/
def sample_element : PolarNavierStokesTractionElement :=
  { nnode := 2, Dim := 2, time := 0, nweight := 1,
    weight := fun _ => 2,
    shape_at_knot := fun _ _ => 1 / 2,
    J_eulerian_at_knot := fun _ => 1,
    nodal_value := fun l i => if i = 0 then (l : ℚ) + 1 else 0,
    nodal_position := fun _ i => if i = 0 then 2 else 0,
    u_local_eqn := fun l i => if i = 0 then (l : Int) else -1,
    Traction_fct_pt := none,
    Alpha := 1,
    Pext_data_pt := some 5,
    external_local_eqn := 2,
    Boundary := 1,
    Eta := 1 }

/-- Sample: the same element with a traction function that imposes the
constant traction (7, 7). -/
def sample_element_with_traction : PolarNavierStokesTractionElement :=
  { sample_element with Traction_fct_pt := some (fun _ _ result => result.map (fun _ => 7)) }

end PolarNavierStokes

namespace PolarNavierStokes

/-- The sum of the shape functions, at a knot, of the nodes in `ls` whose
radial velocity is the unknown with local equation number `j`. -/
def shape_sum_of_unknown (el : PolarNavierStokesTractionElement) (ipt j : Nat)
    (ls : List Nat) : ℚ :=
  (ls.map (fun l => if el.u_local_eqn l 0 = (j : Int) then el.shape_at_knot ipt l else 0)).sum

/-- The residuals of the second state exceed those of the first by `h` times
column `j` of the Jacobian of the first. -/
def tangent (h : ℚ) (j : Nat) (S S' : Contribution) : Prop :=
  ∀ i, S'.residuals i - S.residuals i = h * S.jacobian i j

end PolarNavierStokes

/-! ## The sample point container as the spec describes it -/

/-- Modelled from the spec: the spatial bin index of a container
(SpatialBinIndex; sample_point_container.h is not among the sources). Given
a target point it yields the elements whose bounding region could contain
the point, in the order in which they are to be tested and already cut to
the spiral budget; the list is empty when the bins suggest nothing, as for a
point outside the binned region. -/
structure SpatialBinIndex where
  candidates : List Double → List FiniteElement

/-- Modelled from the spec: the local-coordinate solve of an element
(`FiniteElement::locate_zeta`; elements.h is not among the sources): the
local coordinate when the solve converges within tolerance, `none` when it
does not, which counts as "this element does not contain the point". -/
abbrev LocalCoordinateSolve : Type := FiniteElement → List Double → Option (List Double)

/-- Modelled from the spec: the search over the suggested elements. They are
tested in order and the first one whose local-coordinate solve succeeds is
returned with the local coordinate found; when none succeeds the result is
"not found": a null sub-object, `s` as it came in. -/
def first_located (solve : LocalCoordinateSolve) :
    List FiniteElement → List Double → List Double → Option FiniteElement × List Double
  | [], _, s => (none, s)
  | el :: rest, zeta, s =>
    match solve el zeta with
    | some s1 => (some el, s1)
    | none => first_located solve rest zeta s

/-- Modelled from the spec: `locate_zeta(zeta, sub_geom_object_pt, s)` of a
sample point container: the search over the elements its bin index suggests
for zeta. -/
def spec_locate_zeta (index : SpatialBinIndex) (solve : LocalCoordinateSolve)
    (zeta s : List Double) : Option FiniteElement × List Double :=
  first_located solve (index.candidates zeta) zeta s

/-- Modelled from the spec: the two backends (and the external geometry
library) have an identical external contract: each container searches the
bin index built from the parameter object. -/
def spec_backends (build_index : SamplePointContainerParameters → SpatialBinIndex)
    (solve : LocalCoordinateSolve) : SamplePointContainerBackends :=
  { RefineableBinArray := fun p => spec_locate_zeta (build_index p) solve,
    NonRefineableBinArray := fun p => spec_locate_zeta (build_index p) solve,
    CGALSamplePointContainer := fun p => spec_locate_zeta (build_index p) solve }

/-- Sample: a bin index that suggests element `k` of the mesh, when it is a
finite element, for a point whose first coordinate has bit pattern `k`, and
nothing otherwise. -/
def sample_index (p : SamplePointContainerParameters) : SpatialBinIndex :=
  { candidates := fun zeta =>
      match zeta with
      | [] => []
      | z :: _ =>
        match p.mesh_pt.Element_pt[z.bits]? with
        | some el =>
          match el.as_finite_element with
          | some fe => [fe]
          | none => []
        | none => [] }

/-- Sample: a solve that succeeds on every suggested element, with local
coordinate zeta. -/
def sample_solve : LocalCoordinateSolve := fun _ zeta => some zeta

/-- Sample: the object constructed for `sample_mesh` with containers that
behave as the spec describes. -/
def sample_spec_object : MeshAsGeomObject :=
  (MeshAsGeomObject.construct sample_config (spec_backends sample_index sample_solve) []
    sample_refineable_parameters).1

end oomph

/-! ## Auxiliary facts -/

namespace oomph

theorem to_unsigned_to_int (u : unsigned) : to_unsigned (to_int u) = u.val := by
  have h := u.isLt
  unfold to_unsigned to_int
  split <;> omega

theorem to_int_nonneg_iff (u : unsigned) : 0 ≤ to_int u ↔ u.val < 2 ^ 31 := by
  have h := u.isLt
  unfold to_int
  split <;> omega

theorem mem_set_insert (a x : Nat) (l : List Nat) :
    a ∈ set_insert x l ↔ a = x ∨ a ∈ l := by
  induction l with
  | nil => simp [set_insert]
  | cons y ys ih =>
    unfold set_insert
    split
    · simp
    · split
      · rename_i h1 h2
        subst h2
        simp
      · simp [ih]
        tauto

theorem sorted_set_insert (x : Nat) (l : List Nat) (h : l.Pairwise (· < ·)) :
    (set_insert x l).Pairwise (· < ·) := by
  induction l with
  | nil => simp [set_insert]
  | cons y ys ih =>
    unfold set_insert
    rw [List.pairwise_cons] at h
    split
    · rename_i hxy
      refine List.pairwise_cons.2 ⟨?_, List.pairwise_cons.2 h⟩
      intro b hb
      rcases List.mem_cons.1 hb with rfl | hb
      · exact hxy
      · exact lt_trans hxy (h.1 b hb)
    · split
      · exact List.pairwise_cons.2 h
      · rename_i h1 h2
        refine List.pairwise_cons.2 ⟨?_, ih h.2⟩
        intro b hb
        rcases (mem_set_insert b x ys).1 hb with rfl | hb
        · omega
        · exact h.1 b hb

theorem mem_insert_geom_data (a : Nat) (el : FiniteElement) (tmp : List Nat) :
    a ∈ insert_geom_data el tmp ↔ a ∈ el.geom_data ∨ a ∈ tmp := by
  unfold insert_geom_data
  generalize el.geom_data = ds
  induction ds generalizing tmp with
  | nil => simp
  | cons d ds ih =>
    simp only [List.foldl_cons, ih, mem_set_insert, List.mem_cons]
    tauto

theorem sorted_insert_geom_data (el : FiniteElement) (tmp : List Nat)
    (h : tmp.Pairwise (· < ·)) : (insert_geom_data el tmp).Pairwise (· < ·) := by
  unfold insert_geom_data
  generalize el.geom_data = ds
  induction ds generalizing tmp with
  | nil => simpa using h
  | cons d ds ih =>
    simp only [List.foldl_cons]
    exact ih _ (sorted_set_insert d tmp h)

theorem set_length_append {α : Type} (pre : List α) (m d : α) (rest : List α) :
    (pre ++ m :: rest).set pre.length d = pre ++ d :: rest := by
  induction pre with
  | nil => rfl
  | cons a pre ih => simp [ih]

theorem copy_set_eq (src pre mid post : List Nat) (h : mid.length = src.length) :
    copy_set src pre.length (pre ++ mid ++ post) = pre ++ src ++ post := by
  induction src generalizing pre mid with
  | nil =>
    have : mid = [] := List.length_eq_zero.1 (by simpa using h)
    simp [copy_set, this]
  | cons d rest ih =>
    cases mid with
    | nil => simp at h
    | cons m mid =>
      simp only [copy_set, List.length_cons, Nat.add_right_cancel_iff] at h ⊢
      have h1 : (pre ++ m :: mid ++ post).set pre.length d = (pre ++ [d]) ++ mid ++ post := by
        have h0 := set_length_append pre m d (mid ++ post)
        simp only [List.append_assoc, List.cons_append, List.nil_append] at h0 ⊢
        exact h0
      have h2 : pre.length + 1 = (pre ++ [d]).length := by simp
      rw [h1, h2, ih (pre ++ [d]) mid h]
      simp

theorem copy_set_resize (src dst : List Nat) :
    copy_set src 0 (resize_data dst src.length) = src := by
  have hlen : (resize_data dst src.length).length = src.length := by
    simp [resize_data]; omega
  have := copy_set_eq src [] (resize_data dst src.length) [] hlen
  simpa using this

theorem element_loop_returned (cfg : BuildConfig) (els : List GeneralisedElement)
    (pre mid post : List (Option FiniteElement)) (tmp : List Nat)
    (hfe : ∀ el ∈ els, el.as_finite_element.isSome = true)
    (hlen : mid.length = els.length) (hs : tmp.Pairwise (· < ·)) :
    ∃ tmp1 : List Nat,
      element_loop cfg els pre.length (pre ++ mid ++ post) tmp =
        (pre ++ els.map (fun el => el.as_finite_element) ++ post, tmp1, .returned ()) ∧
      tmp1.Pairwise (· < ·) ∧
      ∀ a, a ∈ tmp1 ↔ a ∈ tmp ∨
        ∃ el ∈ els, ∃ fe, el.as_finite_element = some fe ∧ a ∈ fe.geom_data := by
  induction els generalizing pre mid tmp with
  | nil =>
    have : mid = [] := List.length_eq_zero.1 (by simpa using hlen)
    exact ⟨tmp, by simp [element_loop, this], hs, by simp⟩
  | cons el rest ih =>
    cases mid with
    | nil => simp at hlen
    | cons m mid =>
      obtain ⟨fe, hfe0⟩ := Option.isSome_iff_exists.1 (hfe el (List.mem_cons_self _ _))
      have hset : (pre ++ m :: mid ++ post).set pre.length el.as_finite_element =
          (pre ++ [el.as_finite_element]) ++ mid ++ post := by
        have h0 := set_length_append pre m el.as_finite_element (mid ++ post)
        simp only [List.append_assoc, List.cons_append, List.nil_append] at h0 ⊢
        exact h0
      have hl2 : pre.length + 1 = (pre ++ [el.as_finite_element]).length := by simp
      obtain ⟨tmp1, h1, h2, h3⟩ := ih (pre ++ [el.as_finite_element]) mid
        (insert_geom_data fe tmp) (fun x hx => hfe x (List.mem_cons_of_mem _ hx))
        (by simpa using hlen) (sorted_insert_geom_data fe tmp hs)
      refine ⟨tmp1, ?_, h2, ?_⟩
      · rw [element_loop]
        simp only [hset, hl2]
        rw [hfe0] at h1 ⊢
        simp only [h1]
        simp [hfe0]
      · intro a
        rw [h3, mem_insert_geom_data]
        constructor
        · rintro (h | h) 
          · rcases h with h | h
            · exact Or.inr ⟨el, List.mem_cons_self _ _, fe, hfe0, h⟩
            · exact Or.inl h
          · obtain ⟨x, hx, y, hy, ha⟩ := h
            exact Or.inr ⟨x, List.mem_cons_of_mem _ hx, y, hy, ha⟩
        · rintro (h | ⟨x, hx, y, hy, ha⟩)
          · exact Or.inl (Or.inr h)
          · rcases List.mem_cons.1 hx with rfl | hx
            · rw [hfe0] at hy
              cases hy
              exact Or.inl (Or.inl ha)
            · exact Or.inr ⟨x, hx, y, hy, ha⟩

theorem resize_length {α : Type} (l : List (Option α)) (n : Nat) :
    (resize l n).length = n := by
  simp [resize]; omega

theorem new_container_of_select (cfg : BuildConfig) (lib : SamplePointContainerBackends)
    (p : SamplePointContainerParameters) (v : Sample_Point_Container_Type)
    (hv : select_version cfg p = some v) :
    ∃ c, new_container cfg lib p v = some c := by
  unfold select_version at hv
  split at hv
  · cases hv; exact ⟨_, rfl⟩
  · split at hv
    · cases hv; exact ⟨_, rfl⟩
    · split at hv
      · rename_i h
        cases hv
        simp only [Bool.and_eq_true] at h
        exact ⟨⟨.CGALSamplePointContainer, lib.CGALSamplePointContainer p⟩,
          by simp [new_container, h.1]⟩
      · cases hv

theorem local_dim_returned (cfg : BuildConfig) (m : Mesh) (h : all_finite_elements m) :
    ∃ dim0, local_dim cfg m = .returned dim0 := by
  unfold local_dim Mesh.finite_element_pt Mesh.nelement
  cases hE : m.Element_pt with
  | nil => simp
  | cons el rest =>
    obtain ⟨fe, hfe⟩ := Option.isSome_iff_exists.1 (h el (by simp [hE]))
    simp [hfe]

/-- The object `build_it` leaves behind when it runs to its end. -/
theorem build_it_returned (cfg : BuildConfig) (lib : SamplePointContainerBackends)
    (others : List (Int × Int)) (p : SamplePointContainerParameters)
    (g : MeshAsGeomObject) (v : Sample_Point_Container_Type)
    (hv : select_version cfg p = some v) (hfe : all_finite_elements p.mesh_pt) :
    ∃ c dim0 tmp,
      new_container cfg lib p v = some c ∧
      local_dim cfg p.mesh_pt = .returned dim0 ∧
      tmp.Pairwise (· < ·) ∧
      (∀ a, a ∈ tmp ↔ ∃ el ∈ p.mesh_pt.Element_pt, ∃ fe,
        el.as_finite_element = some fe ∧ a ∈ fe.geom_data) ∧
      build_it cfg lib others p g =
        ({ NLagrangian := to_unsigned (reduce_dim cfg p.mesh_pt
              (if cfg.OOMPH_HAS_MPI then p.mesh_pt.communicator_pt else g.Communicator_pt)
              others dim0).1,
           Ndim := to_unsigned (reduce_dim cfg p.mesh_pt
              (if cfg.OOMPH_HAS_MPI then p.mesh_pt.communicator_pt else g.Communicator_pt)
              others dim0).2,
           Geom_data_pt := tmp,
           Sub_geom_object_pt := p.mesh_pt.Element_pt.map (fun el => el.as_finite_element),
           Sample_point_container_pt := some c,
           Communicator_pt :=
             if cfg.OOMPH_HAS_MPI then p.mesh_pt.communicator_pt else g.Communicator_pt,
           Mesh_pt := some p.mesh_pt,
           Sample_point_container_version := some v }, .returned ()) := by
  obtain ⟨c, hc⟩ := new_container_of_select cfg lib p v hv
  obtain ⟨dim0, hd⟩ := local_dim_returned cfg p.mesh_pt hfe
  obtain ⟨tmp, h1, h2, h3⟩ := element_loop_returned cfg p.mesh_pt.Element_pt []
    (resize g.Sub_geom_object_pt p.mesh_pt.nelement) [] [] hfe
    (by rw [resize_length]; rfl) List.Pairwise.nil
  simp only [List.nil_append, List.append_nil, List.length_nil] at h1
  refine ⟨c, dim0, tmp, hc, hd, h2, ?_, ?_⟩
  · intro a
    rw [h3]
    simp
  · unfold build_it
    simp only [hv, hd]
    cases hm : cfg.OOMPH_HAS_MPI <;>
      simp [h1, hc, copy_set_resize]

theorem reduce_dim_not_distributed (cfg : BuildConfig) (m : Mesh)
    (comm : Option OomphCommunicator) (others : List (Int × Int)) (dim : Int × Int)
    (h : cfg.OOMPH_HAS_MPI = false ∨ m.is_mesh_distributed = false) :
    reduce_dim cfg m comm others dim = dim := by
  unfold reduce_dim
  rcases h with h | h <;> simp [h]

/-- The two dimensions are assigned once, right after the reduction; nothing
later in `build_it` touches them. -/
theorem dimensions_after_build_it (cfg : BuildConfig) (lib : SamplePointContainerBackends)
    (others : List (Int × Int)) (p : SamplePointContainerParameters)
    (g : MeshAsGeomObject) (v : Sample_Point_Container_Type) (dim0 : Int × Int)
    (hv : select_version cfg p = some v)
    (hd : local_dim cfg p.mesh_pt = .returned dim0) :
    (build_it cfg lib others p g).1.NLagrangian =
        to_unsigned (reduce_dim cfg p.mesh_pt
          (if cfg.OOMPH_HAS_MPI then p.mesh_pt.communicator_pt else g.Communicator_pt)
          others dim0).1 ∧
    (build_it cfg lib others p g).1.Ndim =
        to_unsigned (reduce_dim cfg p.mesh_pt
          (if cfg.OOMPH_HAS_MPI then p.mesh_pt.communicator_pt else g.Communicator_pt)
          others dim0).2 := by
  unfold build_it
  simp only [hv, hd]
  cases hm : cfg.OOMPH_HAS_MPI <;>
  · simp only [Bool.false_eq_true, if_false, if_true]
    constructor <;> (split <;> [rfl; rfl; (split <;> rfl)])

/-- The local `dim` array in terms of the first element and the first node. -/
theorem local_dim_eq (cfg : BuildConfig) (m : Mesh) (h : all_finite_elements m) :
    ∃ d0 d1 : Int, local_dim cfg m = .returned (d0, d1) ∧
      (m.Element_pt = [] → d0 = 0) ∧
      (∀ el fe, m.Element_pt[0]? = some el → el.as_finite_element = some fe →
        d0 = to_int fe.dim) ∧
      (m.Node_pt = [] → d1 = 0) ∧
      (∀ nd, m.Node_pt[0]? = some nd → d1 = to_int nd.ndim) := by
  unfold local_dim Mesh.finite_element_pt Mesh.nelement
  cases hE : m.Element_pt with
  | nil =>
    cases hN : m.Node_pt with
    | nil => exact ⟨0, 0, by simp⟩
    | cons nd nds => exact ⟨0, to_int nd.ndim, by simp⟩
  | cons el rest =>
    obtain ⟨fe, hfe⟩ := Option.isSome_iff_exists.1 (h el (by simp [hE]))
    cases hN : m.Node_pt with
    | nil =>
      refine ⟨to_int fe.dim, 0, by simp [hfe], by simp, ?_, by simp, by simp⟩
      intro el1 fe1 h1 h2
      simp only [List.getElem?_cons_zero, Option.some.injEq] at h1
      subst h1
      rw [hfe] at h2
      cases h2
      rfl
    | cons nd nds =>
      refine ⟨to_int fe.dim, to_int nd.ndim, by simp [hfe], by simp, ?_, by simp, by simp⟩
      intro el1 fe1 h1 h2
      simp only [List.getElem?_cons_zero, Option.some.injEq] at h1
      subst h1
      rw [hfe] at h2
      cases h2
      rfl

/-! ## Construction: dimensions -/

/-- C1. For a mesh that is not distributed (a build without MPI, or a mesh
not flagged as distributed), whose elements are finite elements and which
comes with a recognised parameter object, `build_it` runs to its end and
leaves the Lagrangian dimension equal to `dim()` of element 0 when the mesh
has an element and to 0 when it has none, and the Eulerian dimension equal
to `ndim()` of node 0 when the mesh has a node and to 0 when it has none; an
empty mesh therefore gets the pair (0, 0). -/
theorem build_it_dimensions_of_non_distributed_mesh
    (cfg : BuildConfig) (lib : SamplePointContainerBackends)
    (others : List (Int × Int)) (p : SamplePointContainerParameters)
    (g : MeshAsGeomObject)
    (hrec : (select_version cfg p).isSome = true)
    (hfe : all_finite_elements p.mesh_pt)
    (hnd : cfg.OOMPH_HAS_MPI = false ∨ p.mesh_pt.is_mesh_distributed = false) :
    (build_it cfg lib others p g).2 = .returned () ∧
    (∀ el fe, p.mesh_pt.Element_pt[0]? = some el → el.as_finite_element = some fe →
      (build_it cfg lib others p g).1.nlagrangian = fe.dim.val) ∧
    (p.mesh_pt.nelement = 0 → (build_it cfg lib others p g).1.nlagrangian = 0) ∧
    (∀ nd, p.mesh_pt.Node_pt[0]? = some nd →
      (build_it cfg lib others p g).1.ndim = nd.ndim.val) ∧
    (p.mesh_pt.nnode = 0 → (build_it cfg lib others p g).1.ndim = 0) ∧
    (p.mesh_pt.nelement = 0 → p.mesh_pt.nnode = 0 →
      ((build_it cfg lib others p g).1.nlagrangian,
        (build_it cfg lib others p g).1.ndim) = (0, 0)) := by
  obtain ⟨v, hv⟩ := Option.isSome_iff_exists.1 hrec
  obtain ⟨d0, d1, hd, hE0, hE1, hN0, hN1⟩ := local_dim_eq cfg p.mesh_pt hfe
  obtain ⟨c, dim0, tmp, -, -, -, -, hb⟩ := build_it_returned cfg lib others p g v hv hfe
  have hdim := dimensions_after_build_it cfg lib others p g v (d0, d1) hv hd
  rw [reduce_dim_not_distributed _ _ _ _ _ hnd] at hdim
  simp only [MeshAsGeomObject.nlagrangian, MeshAsGeomObject.ndim, hdim.1, hdim.2]
  have hz : to_unsigned 0 = 0 := by decide
  refine ⟨by rw [hb], ?_, ?_, ?_, ?_, ?_⟩
  · intro el fe h1 h2
    rw [hE1 el fe h1 h2, to_unsigned_to_int]
  · intro h
    rw [hE0 (List.length_eq_zero.1 h), hz]
  · intro nd h
    rw [hN1 nd h, to_unsigned_to_int]
  · intro h
    rw [hN0 (List.length_eq_zero.1 h), hz]
  · intro h1 h2
    rw [hE0 (List.length_eq_zero.1 h1), hN0 (List.length_eq_zero.1 h2), hz]

/-- C1, on the sample mesh: two elements of dimension 2 and nodes in the
plane give the Lagrangian dimension 2. -/
theorem build_it_dimensions_of_non_distributed_mesh_witness :
    (build_it sample_config sample_backends [] sample_refineable_parameters
      MeshAsGeomObject.initial).1.nlagrangian = 2 :=
  (build_it_dimensions_of_non_distributed_mesh sample_config sample_backends []
    sample_refineable_parameters MeshAsGeomObject.initial
    (by decide) (by decide) (by decide)).2.1
    ⟨some (sample_element 100 2 [10, 11])⟩ (sample_element 100 2 [10, 11]) rfl rfl

theorem allreduce_max_spec (own : Int × Int) (others : List (Int × Int)) :
    (own.1 ≤ (MPI_Allreduce_MAX own others).1 ∧ own.2 ≤ (MPI_Allreduce_MAX own others).2) ∧
    (∀ d ∈ others, d.1 ≤ (MPI_Allreduce_MAX own others).1 ∧
      d.2 ≤ (MPI_Allreduce_MAX own others).2) ∧
    ((MPI_Allreduce_MAX own others).1 = own.1 ∨
      ∃ d ∈ others, (MPI_Allreduce_MAX own others).1 = d.1) ∧
    ((MPI_Allreduce_MAX own others).2 = own.2 ∨
      ∃ d ∈ others, (MPI_Allreduce_MAX own others).2 = d.2) := by
  unfold MPI_Allreduce_MAX
  induction others generalizing own with
  | nil => simp
  | cons d rest ih =>
    simp only [List.foldl_cons]
    obtain ⟨⟨h1, h2⟩, h3, h4, h5⟩ := ih (max own.1 d.1, max own.2 d.2)
    simp only at h1 h2 h4 h5
    refine ⟨⟨le_trans (le_max_left _ _) h1, le_trans (le_max_left _ _) h2⟩, ?_, ?_, ?_⟩
    · intro x hx
      rcases List.mem_cons.1 hx with rfl | hx
      · exact ⟨le_trans (le_max_right _ _) h1, le_trans (le_max_right _ _) h2⟩
      · exact h3 x hx
    · rcases h4 with h | ⟨x, hx, h⟩
      · rcases max_choice own.1 d.1 with hm | hm
        · exact Or.inl (h.trans hm)
        · exact Or.inr ⟨d, List.mem_cons_self _ _, h.trans hm⟩
      · exact Or.inr ⟨x, List.mem_cons_of_mem _ hx, h⟩
    · rcases h5 with h | ⟨x, hx, h⟩
      · rcases max_choice own.2 d.2 with hm | hm
        · exact Or.inl (h.trans hm)
        · exact Or.inr ⟨d, List.mem_cons_self _ _, h.trans hm⟩
      · exact Or.inr ⟨x, List.mem_cons_of_mem _ hx, h⟩

theorem is_max_of_local_dims_unique (cfg : BuildConfig)
    (params : List SamplePointContainerParameters) (D E : Int × Int)
    (hD : is_max_of_local_dims cfg params D) (hE : is_max_of_local_dims cfg params E) :
    D = E := by
  obtain ⟨hD1, ⟨p1, hp1, d1, hd1, e1⟩, ⟨p2, hp2, d2, hd2, e2⟩⟩ := hD
  obtain ⟨hE1, ⟨q1, hq1, c1, hc1, f1⟩, ⟨q2, hq2, c2, hc2, f2⟩⟩ := hE
  have a1 := (hE1 p1 hp1 d1 hd1).1
  have a2 := (hE1 p2 hp2 d2 hd2).2
  have b1 := (hD1 q1 hq1 c1 hc1).1
  have b2 := (hD1 q2 hq2 c2 hc2).2
  apply Prod.ext <;> omega

theorem allreduce_contribution_eq (cfg : BuildConfig) (p : SamplePointContainerParameters)
    (d : Int × Int) (hmpi : cfg.OOMPH_HAS_MPI = true)
    (hrec : (select_version cfg p).isSome = true)
    (hd : local_dim cfg p.mesh_pt = .returned d)
    (hdist : p.mesh_pt.is_mesh_distributed = true)
    (hcomm : ∃ c, p.mesh_pt.communicator_pt = some c ∧ 1 < c.nproc) :
    allreduce_contribution cfg p = some d := by
  obtain ⟨v, hv⟩ := Option.isSome_iff_exists.1 hrec
  obtain ⟨c, hc, hn⟩ := hcomm
  unfold allreduce_contribution
  simp [hv, hd, hmpi, hdist, hc, hn]

theorem mem_or_mem_eraseIdx {α : Type} (l : List α) (i : Nat) (hi : i < l.length)
    (x : α) (hx : x ∈ l) : x = l[i] ∨ x ∈ l.eraseIdx i := by
  obtain ⟨j, hj, rfl⟩ := List.mem_iff_getElem.1 hx
  by_cases h : j = i
  · subst h
    exact Or.inl rfl
  · exact Or.inr (List.mem_eraseIdx_iff_getElem?.2 ⟨j, h, List.getElem?_eq_getElem hj⟩)

theorem mem_of_mem_eraseIdx_self {α : Type} (l : List α) (i : Nat) (x : α)
    (hx : x ∈ l.eraseIdx i) : x ∈ l := by
  obtain ⟨j, -, hj⟩ := List.mem_eraseIdx_iff_getElem?.1 hx
  exact List.getElem?_mem hj

/-- One process of a parallel run on a distributed mesh: `build_it` runs to
its end and the dimensions it sets are the maximum of the local ones. -/
theorem build_it_distributed_process (cfg : BuildConfig)
    (lib : SamplePointContainerBackends) (params : List SamplePointContainerParameters)
    (hmpi : cfg.OOMPH_HAS_MPI = true)
    (hrec : ∀ p ∈ params, (select_version cfg p).isSome = true)
    (hfe : ∀ p ∈ params, all_finite_elements p.mesh_pt)
    (hdist : ∀ p ∈ params, p.mesh_pt.is_mesh_distributed = true)
    (hcomm : ∀ p ∈ params, ∃ c, p.mesh_pt.communicator_pt = some c ∧ 1 < c.nproc)
    (i : Nat) (hi : i < params.length) (g : MeshAsGeomObject) :
    ∃ D : Int × Int, is_max_of_local_dims cfg params D ∧
      (build_it cfg lib (others_of cfg params i) params[i] g).2 = .returned () ∧
      (build_it cfg lib (others_of cfg params i) params[i] g).1.NLagrangian =
        to_unsigned D.1 ∧
      (build_it cfg lib (others_of cfg params i) params[i] g).1.Ndim =
        to_unsigned D.2 := by
  have hmem : params[i] ∈ params := List.getElem_mem hi
  obtain ⟨v, hv⟩ := Option.isSome_iff_exists.1 (hrec _ hmem)
  obtain ⟨c, dim0, tmp, -, hd, -, -, hb⟩ :=
    build_it_returned cfg lib (others_of cfg params i) params[i] g v hv (hfe _ hmem)
  obtain ⟨cm, hcm, hn⟩ := hcomm _ hmem
  have hred : reduce_dim cfg params[i].mesh_pt
      (if cfg.OOMPH_HAS_MPI = true then params[i].mesh_pt.communicator_pt
        else g.Communicator_pt) (others_of cfg params i) dim0 =
      MPI_Allreduce_MAX dim0 (others_of cfg params i) := by
    unfold reduce_dim
    simp [hmpi, hdist _ hmem, hcm, hn]
  rw [hred] at hb
  obtain ⟨⟨h1, h2⟩, h3, h4, h5⟩ := allreduce_max_spec dim0 (others_of cfg params i)
  have hothers : ∀ d, d ∈ others_of cfg params i ↔
      ∃ q ∈ params.eraseIdx i, local_dim cfg q.mesh_pt = .returned d := by
    intro d
    unfold others_of
    rw [List.mem_filterMap]
    constructor
    · rintro ⟨q, hq, hqd⟩
      have hq1 := mem_of_mem_eraseIdx_self _ _ _ hq
      obtain ⟨e, he⟩ := local_dim_returned cfg q.mesh_pt (hfe q hq1)
      have := allreduce_contribution_eq cfg q e hmpi (hrec q hq1) he (hdist q hq1)
        (hcomm q hq1)
      rw [this] at hqd
      cases hqd
      exact ⟨q, hq, he⟩
    · rintro ⟨q, hq, hqd⟩
      have hq1 := mem_of_mem_eraseIdx_self _ _ _ hq
      exact ⟨q, hq, allreduce_contribution_eq cfg q d hmpi (hrec q hq1) hqd (hdist q hq1)
        (hcomm q hq1)⟩
  refine ⟨MPI_Allreduce_MAX dim0 (others_of cfg params i), ⟨?_, ?_, ?_⟩, ?_, ?_, ?_⟩
  · intro q hq d hqd
    rcases mem_or_mem_eraseIdx params i hi q hq with rfl | hq2
    · rw [hd] at hqd
      cases hqd
      exact ⟨h1, h2⟩
    · exact h3 d ((hothers d).2 ⟨q, hq2, hqd⟩)
  · rcases h4 with h | ⟨d, hdm, h⟩
    · exact ⟨_, hmem, dim0, hd, h.symm⟩
    · obtain ⟨q, hq, hqd⟩ := (hothers d).1 hdm
      exact ⟨q, mem_of_mem_eraseIdx_self _ _ _ hq, d, hqd, h.symm⟩
  · rcases h5 with h | ⟨d, hdm, h⟩
    · exact ⟨_, hmem, dim0, hd, h.symm⟩
    · obtain ⟨q, hq, hqd⟩ := (hothers d).1 hdm
      exact ⟨q, mem_of_mem_eraseIdx_self _ _ _ hq, d, hqd, h.symm⟩
  · rw [hb]
  · rw [hb]
  · rw [hb]

/-- C2. In a build with MPI, take a parallel run over more than one process
in which every process holds a partition of a distributed mesh with a
non-null communicator counting all the processes (recognised parameter
objects, finite elements). Then there is one pair `D`, the entry-wise
maximum over all processes of the local `dim` arrays, such that on every
process `build_it` runs to its end and leaves exactly the dimensions
`(unsigned) D`. Hence, when every local dimension is either zero or a common
value `(a, b)` found on some partition, every process, also one that owns no
element and no node, ends with `(a, b)` rather than `(0, 0)`. -/
theorem build_it_dimensions_of_distributed_mesh (cfg : BuildConfig)
    (lib : SamplePointContainerBackends) (params : List SamplePointContainerParameters)
    (hmpi : cfg.OOMPH_HAS_MPI = true)
    (hn : 1 < params.length)
    (hrec : ∀ p ∈ params, (select_version cfg p).isSome = true)
    (hfe : ∀ p ∈ params, all_finite_elements p.mesh_pt)
    (hdist : ∀ p ∈ params, p.mesh_pt.is_mesh_distributed = true)
    (hcomm : ∀ p ∈ params, p.mesh_pt.communicator_pt = some ⟨(params.length : Int)⟩) :
    ∃ D : Int × Int, is_max_of_local_dims cfg params D ∧
      (∀ (i : Nat) (hi : i < params.length) (g : MeshAsGeomObject),
        (build_it cfg lib (others_of cfg params i) params[i] g).2 = .returned () ∧
        ((build_it cfg lib (others_of cfg params i) params[i] g).1.nlagrangian,
         (build_it cfg lib (others_of cfg params i) params[i] g).1.ndim) =
          (to_unsigned D.1, to_unsigned D.2)) ∧
      (∀ a b : unsigned, a.val < 2 ^ 31 → b.val < 2 ^ 31 →
        (∀ p ∈ params, ∀ d, local_dim cfg p.mesh_pt = .returned d →
          (d.1 = 0 ∨ d.1 = to_int a) ∧ (d.2 = 0 ∨ d.2 = to_int b)) →
        (∃ p ∈ params, ∃ d, local_dim cfg p.mesh_pt = .returned d ∧ d.1 = to_int a) →
        (∃ p ∈ params, ∃ d, local_dim cfg p.mesh_pt = .returned d ∧ d.2 = to_int b) →
        ∀ (i : Nat) (hi : i < params.length) (g : MeshAsGeomObject),
          ((build_it cfg lib (others_of cfg params i) params[i] g).1.nlagrangian,
           (build_it cfg lib (others_of cfg params i) params[i] g).1.ndim) =
            (a.val, b.val)) := by
  have hcomm1 : ∀ p ∈ params, ∃ c, p.mesh_pt.communicator_pt = some c ∧ 1 < c.nproc := by
    intro p hp
    exact ⟨_, hcomm p hp, by simp only; omega⟩
  have h0 : 0 < params.length := by omega
  obtain ⟨D, hD, -⟩ := build_it_distributed_process cfg lib params hmpi hrec hfe hdist
    hcomm1 0 h0 MeshAsGeomObject.initial
  have hall : ∀ (i : Nat) (hi : i < params.length) (g : MeshAsGeomObject),
      (build_it cfg lib (others_of cfg params i) params[i] g).2 = .returned () ∧
      ((build_it cfg lib (others_of cfg params i) params[i] g).1.nlagrangian,
       (build_it cfg lib (others_of cfg params i) params[i] g).1.ndim) =
        (to_unsigned D.1, to_unsigned D.2) := by
    intro i hi g
    obtain ⟨E, hE, h1, h2, h3⟩ := build_it_distributed_process cfg lib params hmpi hrec
      hfe hdist hcomm1 i hi g
    have hDE := is_max_of_local_dims_unique cfg params D E hD hE
    subst hDE
    exact ⟨h1, by simp only [MeshAsGeomObject.nlagrangian, MeshAsGeomObject.ndim, h2, h3]⟩
  refine ⟨D, hD, hall, ?_⟩
  intro a b ha hb hzero ⟨p1, hp1, d1, hd1, e1⟩ ⟨p2, hp2, d2, hd2, e2⟩ i hi g
  rw [(hall i hi g).2]
  obtain ⟨hub, ⟨q1, hq1, c1, hc1, f1⟩, ⟨q2, hq2, c2, hc2, f2⟩⟩ := hD
  have ha0 := (to_int_nonneg_iff a).2 ha
  have hb0 := (to_int_nonneg_iff b).2 hb
  have u1 := (hub p1 hp1 d1 hd1).1
  have u2 := (hub p2 hp2 d2 hd2).2
  have z1 := (hzero q1 hq1 c1 hc1).1
  have z2 := (hzero q2 hq2 c2 hc2).2
  have hD1 : D.1 = to_int a := by omega
  have hD2 : D.2 = to_int b := by omega
  rw [hD1, hD2, to_unsigned_to_int, to_unsigned_to_int]

/-- C2, on the sample run of two processes: the process that owns neither
element nor node ends with the dimensions (2, 3) of the other partition. -/
theorem build_it_dimensions_of_distributed_mesh_witness :
    ((build_it sample_config sample_backends
        (others_of sample_config sample_parallel_parameters 1)
        (sample_parallel_parameters.get ⟨1, by decide⟩) MeshAsGeomObject.initial).1.nlagrangian,
     (build_it sample_config sample_backends
        (others_of sample_config sample_parallel_parameters 1)
        (sample_parallel_parameters.get ⟨1, by decide⟩) MeshAsGeomObject.initial).1.ndim) =
      (2, 3) := by
  obtain ⟨D, -, -, h⟩ := build_it_dimensions_of_distributed_mesh sample_config
    sample_backends sample_parallel_parameters (by decide) (by decide) (by decide)
    (by decide) (by decide) (by decide)
  have hfull : local_dim sample_config sample_partition_full = .returned (2, 3) := by decide
  have hempty : local_dim sample_config sample_partition_empty = .returned (0, 0) := by
    decide
  refine h ⟨2, by decide⟩ ⟨3, by decide⟩ (by decide) (by decide) ?_
    ⟨_, List.mem_cons_self _ _, (2, 3), hfull, by decide⟩
    ⟨_, List.mem_cons_self _ _, (2, 3), hfull, by decide⟩ 1 (by decide)
    MeshAsGeomObject.initial
  intro p hp d hd
  simp only [sample_parallel_parameters, List.mem_cons, List.mem_singleton,
    List.not_mem_nil, or_false] at hp
  rcases hp with rfl | rfl
  · simp only at hd
    rw [hfull] at hd
    cases hd
    decide
  · simp only at hd
    rw [hempty] at hd
    cases hd
    decide

/-! ## Construction: the parameter object -/

/-- C3. When the parameter object can be cast to none of the recognised
classes (the CGAL class counting only in a build with CGAL), `build_it`
throws "Wrong sample_point_container_parameters_pt" at once: the object it
leaves differs from the one it found in the mesh pointer only; dimensions,
sub-object vector, geometric-data vector, container pointer and version are
untouched. -/
theorem build_it_throws_on_unrecognised_parameters (cfg : BuildConfig)
    (lib : SamplePointContainerBackends) (others : List (Int × Int))
    (p : SamplePointContainerParameters) (g : MeshAsGeomObject)
    (h1 : p.is_RefineableBinArrayParameters = false)
    (h2 : p.is_NonRefineableBinArrayParameters = false)
    (h3 : cfg.OOMPH_HAS_CGAL = true → p.is_CGALSamplePointContainerParameters = false) :
    build_it cfg lib others p g =
      ({ g with Mesh_pt := some p.mesh_pt },
        .threw .wrong_sample_point_container_parameters_pt) ∧
    (build_it cfg lib others p g).1.NLagrangian = g.NLagrangian ∧
    (build_it cfg lib others p g).1.Ndim = g.Ndim ∧
    (build_it cfg lib others p g).1.Sub_geom_object_pt = g.Sub_geom_object_pt ∧
    (build_it cfg lib others p g).1.Geom_data_pt = g.Geom_data_pt ∧
    (build_it cfg lib others p g).1.Sample_point_container_pt =
      g.Sample_point_container_pt ∧
    (build_it cfg lib others p g).1.Sample_point_container_version =
      g.Sample_point_container_version := by
  have hv : select_version cfg p = none := by
    unfold select_version
    cases hc : cfg.OOMPH_HAS_CGAL
    · simp [h1, h2]
    · simp [h1, h2, h3 hc]
  have hb : build_it cfg lib others p g =
      ({ g with Mesh_pt := some p.mesh_pt },
        .threw .wrong_sample_point_container_parameters_pt) := by
    unfold build_it
    simp only [hv]
  rw [hb]
  exact ⟨rfl, rfl, rfl, rfl, rfl, rfl, rfl⟩

/-- C3, on the sample mesh with a parameter object of unknown type: the
constructor throws and no sub-object has been stored. -/
theorem build_it_throws_on_unrecognised_parameters_witness :
    (MeshAsGeomObject.construct sample_config sample_backends []
        sample_unknown_parameters).2 =
      .threw .wrong_sample_point_container_parameters_pt ∧
    (MeshAsGeomObject.construct sample_config sample_backends []
        sample_unknown_parameters).1.Sub_geom_object_pt = [] := by
  have h := build_it_throws_on_unrecognised_parameters sample_config sample_backends []
    sample_unknown_parameters MeshAsGeomObject.initial rfl rfl (fun _ => rfl)
  exact ⟨by rw [MeshAsGeomObject.construct, h.1], h.2.2.2.1⟩

/-! ## Queries -/

/-- A completed `build_it` leaves an object with its container and its mesh
pointer set. -/
theorem build_it_returned_has_container (cfg : BuildConfig)
    (lib : SamplePointContainerBackends) (others : List (Int × Int))
    (p : SamplePointContainerParameters) (g : MeshAsGeomObject)
    (h : (build_it cfg lib others p g).2 = .returned ()) :
    (build_it cfg lib others p g).1.Sample_point_container_pt.isSome = true ∧
    (build_it cfg lib others p g).1.Mesh_pt.isSome = true := by
  revert h
  unfold build_it
  cases hm : cfg.OOMPH_HAS_MPI <;>
  · simp only [Bool.false_eq_true, if_false, if_true]
    split <;> [(intro h; cases h);
      (split <;> [(intro h; cases h); (intro h; cases h);
        (split <;> [(intro h; cases h); (intro h; cases h);
          (split <;> [(intro h; cases h); (intro _; exact ⟨rfl, rfl⟩)])])])]

theorem locate_zeta_of_container (cfg : BuildConfig) (g : MeshAsGeomObject)
    (c : SamplePointContainer) (zeta s : List Double) (flag : Bool)
    (hc : g.Sample_point_container_pt = some c) :
    g.locate_zeta cfg zeta s flag =
      .returned ⟨if cfg.PARANOID && flag then
          ["Ignoring the use_coordinate_as_initial_guess argument."] else [],
        (c.locate_zeta zeta s).1, (c.locate_zeta zeta s).2⟩ := by
  simp only [MeshAsGeomObject.locate_zeta, hc]

/-- C4. On an object that has its container and its mesh, as every
constructed one has, and for a zeta with at least `nlagrangian()` entries,
`position(t, zeta, r)` throws an `OomphLibError` exactly when
`locate_zeta(zeta)`, started from a zero-filled local coordinate, returns a
null sub-object, and the error is then "Cannot locate zeta". When a
sub-object is located, `position` returns what that sub-object's own
`position(t, s, r)` gives at the local coordinate `s` that `locate_zeta`
returned, whatever the length of zeta. A thrown error always means a null
sub-object; for a shorter zeta that is not located the message would read
zeta past its end, which is no throw but undefined behaviour. This holds for
every timestep index `t`. -/
theorem position_throws_iff_not_located (cfg : BuildConfig) (g : MeshAsGeomObject)
    (zeta r : List Double)
    (hc : g.Sample_point_container_pt.isSome = true)
    (hmesh : g.Mesh_pt.isSome = true) :
    ∃ res : LocateResult,
      g.locate_zeta cfg zeta (List.replicate g.nlagrangian Double.zero) false =
        .returned res ∧
      ∀ t : Nat,
        (g.nlagrangian ≤ zeta.length →
          ((g.position cfg t zeta r).is_error = true ↔ res.sub_geom_object_pt = none)) ∧
        (g.nlagrangian ≤ zeta.length → res.sub_geom_object_pt = none →
          g.position cfg t zeta r =
            .threw (.cannot_locate_zeta (zeta.take g.nlagrangian))) ∧
        (∀ sub, res.sub_geom_object_pt = some sub →
          g.position cfg t zeta r = .returned (sub.position t res.s r)) ∧
        ((g.position cfg t zeta r).is_error = true → res.sub_geom_object_pt = none) ∧
        (zeta.length < g.nlagrangian → res.sub_geom_object_pt = none →
          g.position cfg t zeta r = .undefined) := by
  obtain ⟨c, hc⟩ := Option.isSome_iff_exists.1 hc
  obtain ⟨m, hm⟩ := Option.isSome_iff_exists.1 hmesh
  have hl := locate_zeta_of_container cfg g c zeta
    (List.replicate g.nlagrangian Double.zero) false hc
  refine ⟨_, hl, ?_⟩
  intro t
  unfold MeshAsGeomObject.position
  simp only [hl, hm]
  cases hsub : (c.locate_zeta zeta (List.replicate g.nlagrangian Double.zero)).1 with
  | none =>
    by_cases hlen : zeta.length < g.nlagrangian
    · have hnot : ¬ g.nlagrangian ≤ zeta.length := by omega
      simp [Outcome.is_error, hlen, hnot]
    · have hle : g.nlagrangian ≤ zeta.length := by omega
      simp [Outcome.is_error, hlen, hle]
  | some sub => simp [Outcome.is_error]

/-- C4, on the sample object: a point the search does not find makes
`position` throw "Cannot locate zeta", at timestep 1 as at any other. -/
theorem position_throws_iff_not_located_witness :
    sample_object.position sample_config 1 [⟨7⟩, ⟨0⟩] [] =
      .threw (.cannot_locate_zeta [⟨7⟩, ⟨0⟩]) := by
  obtain ⟨res, hres, h⟩ := position_throws_iff_not_located sample_config sample_object
    [⟨7⟩, ⟨0⟩] [] (by decide) (by decide)
  have hl : sample_object.locate_zeta sample_config [⟨7⟩, ⟨0⟩]
      (List.replicate sample_object.nlagrangian Double.zero) false =
      .returned ⟨[], none, [⟨0⟩, ⟨0⟩]⟩ := rfl
  rw [hl] at hres
  cases hres
  exact (h 1).2.1 (by decide) rfl

theorem first_located_none_iff (solve : LocalCoordinateSolve)
    (cands : List FiniteElement) (zeta s : List Double) :
    (first_located solve cands zeta s).1 = none ↔ ∀ el ∈ cands, solve el zeta = none := by
  induction cands with
  | nil => simp [first_located]
  | cons el rest ih =>
    unfold first_located
    cases hsol : solve el zeta with
    | none => simp [hsol, ih]
    | some s1 => simp [hsol]

theorem first_located_some (solve : LocalCoordinateSolve)
    (cands : List FiniteElement) (zeta s : List Double) (el : FiniteElement)
    (h : (first_located solve cands zeta s).1 = some el) :
    el ∈ cands ∧ solve el zeta = some (first_located solve cands zeta s).2 := by
  induction cands with
  | nil => simp [first_located] at h
  | cons e rest ih =>
    unfold first_located at h ⊢
    cases hsol : solve e zeta with
    | none =>
      simp only [hsol] at h ⊢
      exact ⟨List.mem_cons_of_mem _ (ih h).1, (ih h).2⟩
    | some s1 =>
      simp only [hsol, Option.some.injEq] at h ⊢
      subst h
      exact ⟨List.mem_cons_self _ _, hsol⟩

theorem first_located_not_found_keeps_s (solve : LocalCoordinateSolve)
    (cands : List FiniteElement) (zeta s : List Double)
    (h : (first_located solve cands zeta s).1 = none) :
    (first_located solve cands zeta s).2 = s := by
  induction cands with
  | nil => rfl
  | cons e rest ih =>
    unfold first_located at h ⊢
    cases hsol : solve e zeta with
    | none =>
      simp only [hsol] at h ⊢
      exact ih h
    | some s1 => simp [hsol] at h

/-- The container that the final `switch` builds from backends that follow
the spec searches the bin index of the parameter object. -/
theorem new_container_spec_backends (cfg : BuildConfig)
    (build_index : SamplePointContainerParameters → SpatialBinIndex)
    (solve : LocalCoordinateSolve) (p : SamplePointContainerParameters)
    (v : Sample_Point_Container_Type) (c : SamplePointContainer)
    (h : new_container cfg (spec_backends build_index solve) p v = some c) :
    c.locate_zeta = spec_locate_zeta (build_index p) solve := by
  cases v with
  | UseRefineableBinArray =>
    simp only [new_container, Option.some.injEq] at h
    subst h
    rfl
  | UseNonRefineableBinArray =>
    simp only [new_container, Option.some.injEq] at h
    subst h
    rfl
  | UseCGALSamplePointContainer =>
    simp only [new_container] at h
    split at h
    · simp only [Option.some.injEq] at h
      subst h
      rfl
    · cases h

/-- Every object constructed with backends that follow the spec, from
recognised parameters and a mesh of finite elements, holds a container that
searches the bin index of its parameter object. -/
theorem build_it_spec_container (cfg : BuildConfig)
    (build_index : SamplePointContainerParameters → SpatialBinIndex)
    (solve : LocalCoordinateSolve) (others : List (Int × Int))
    (p : SamplePointContainerParameters) (g : MeshAsGeomObject)
    (hrec : (select_version cfg p).isSome = true)
    (hfe : all_finite_elements p.mesh_pt) :
    ∃ c, (build_it cfg (spec_backends build_index solve) others p g).1.Sample_point_container_pt
        = some c ∧
      c.locate_zeta = spec_locate_zeta (build_index p) solve := by
  obtain ⟨v, hv⟩ := Option.isSome_iff_exists.1 hrec
  obtain ⟨c, dim0, tmp, hc, -, -, -, hb⟩ :=
    build_it_returned cfg (spec_backends build_index solve) others p g v hv hfe
  rw [hb]
  exact ⟨c, rfl, new_container_spec_backends cfg build_index solve p v c hc⟩

/-- C5. Let the object hold a container that behaves as the spec describes
(it tests the elements its bin index suggests, in order, by their
local-coordinate solve). Then `locate_zeta` raises no error: for every zeta,
every incoming `s` and either value of the flag it returns normally, with
exactly the sub-object and local coordinate that the container's
`locate_zeta` produced. The sub-object is null exactly when no suggested
element contains the point, in particular when the bins suggest nothing, as
for a point outside the binned region; a non-null sub-object is a suggested
element whose solve gave the returned local coordinate. -/
theorem locate_zeta_returns_container_result (cfg : BuildConfig) (g : MeshAsGeomObject)
    (c : SamplePointContainer) (index : SpatialBinIndex) (solve : LocalCoordinateSolve)
    (hc : g.Sample_point_container_pt = some c)
    (hspec : c.locate_zeta = spec_locate_zeta index solve)
    (zeta s : List Double) (use_coordinate_as_initial_guess : Bool) :
    ∃ res : LocateResult,
      g.locate_zeta cfg zeta s use_coordinate_as_initial_guess = .returned res ∧
      res.located = c.locate_zeta zeta s ∧
      (res.sub_geom_object_pt = none ↔
        ∀ el ∈ index.candidates zeta, solve el zeta = none) ∧
      (index.candidates zeta = [] → res.sub_geom_object_pt = none) ∧
      (∀ el, res.sub_geom_object_pt = some el →
        el ∈ index.candidates zeta ∧ solve el zeta = some res.s) := by
  refine ⟨_, locate_zeta_of_container cfg g c zeta s _ hc, rfl, ?_, ?_, ?_⟩
  · simp only [hspec, spec_locate_zeta]
    exact first_located_none_iff solve _ zeta s
  · intro hnil
    simp only [hspec, spec_locate_zeta, hnil, first_located]
  · intro el hel
    simp only [hspec, spec_locate_zeta] at hel ⊢
    exact first_located_some solve _ zeta s el hel

/-- C5, on the sample object whose container follows the spec: a point for
which the bins suggest no element comes back from `locate_zeta` as a null
sub-object on normal return. -/
theorem locate_zeta_returns_container_result_witness :
    ∃ res : LocateResult,
      sample_spec_object.locate_zeta sample_config [⟨7⟩, ⟨0⟩] [] false = .returned res ∧
      res.sub_geom_object_pt = none := by
  obtain ⟨res, h1, -, -, h4, -⟩ := locate_zeta_returns_container_result sample_config
    sample_spec_object
    ⟨.RefineableBinArray,
      spec_locate_zeta (sample_index sample_refineable_parameters) sample_solve⟩
    (sample_index sample_refineable_parameters) sample_solve rfl rfl [⟨7⟩, ⟨0⟩] [] false
  exact ⟨res, h1, h4 rfl⟩

/-- C6. The flag `use_coordinate_as_initial_guess` does not enter the
search: for every object, every zeta and every incoming `s`, the call with
the flag set and the call with the flag cleared end the same way and, when
they return, with the same sub-object and the same local coordinate. -/
theorem locate_zeta_ignores_initial_guess_flag (cfg : BuildConfig)
    (g : MeshAsGeomObject) (zeta s : List Double) :
    (g.locate_zeta cfg zeta s true).map LocateResult.located =
      (g.locate_zeta cfg zeta s false).map LocateResult.located := by
  unfold MeshAsGeomObject.locate_zeta
  cases g.Sample_point_container_pt <;> rfl

/-! ## Construction: geometric data and sub-objects -/

theorem mem_mesh_geom_data (m : Mesh) (a : Nat) :
    a ∈ m.geom_data ↔
      ∃ el ∈ m.Element_pt, ∃ fe, el.as_finite_element = some fe ∧ a ∈ fe.geom_data := by
  unfold Mesh.geom_data
  simp only [List.mem_flatten, List.mem_map]
  constructor
  · rintro ⟨l, ⟨el, hel, rfl⟩, ha⟩
    cases hfe : el.as_finite_element with
    | none => simp [hfe] at ha
    | some fe =>
      simp only [hfe] at ha
      exact ⟨el, hel, fe, hfe, ha⟩
  · rintro ⟨el, hel, fe, hfe, ha⟩
    exact ⟨_, ⟨el, hel, rfl⟩, by simpa [hfe] using ha⟩

theorem nodup_of_sorted_lt (l : List Nat) (h : l.Pairwise (· < ·)) : l.Nodup :=
  h.imp (fun hab => Nat.ne_of_lt hab)

/-- C7. After a completed construction the geometric-data vector holds
exactly the `Data` items that are geometric data of some element of the
mesh, each once: membership is membership in some element's geometric data,
`ngeom_data()` is the number of distinct such items, and two different
indices below `ngeom_data()` give different pointers. -/
theorem build_it_geom_data_distinct (cfg : BuildConfig)
    (lib : SamplePointContainerBackends) (others : List (Int × Int))
    (p : SamplePointContainerParameters) (g : MeshAsGeomObject)
    (hrec : (select_version cfg p).isSome = true)
    (hfe : all_finite_elements p.mesh_pt) :
    (build_it cfg lib others p g).2 = .returned () ∧
    (∀ a, a ∈ (build_it cfg lib others p g).1.Geom_data_pt ↔
      ∃ el ∈ p.mesh_pt.Element_pt, ∃ fe,
        el.as_finite_element = some fe ∧ a ∈ fe.geom_data) ∧
    (build_it cfg lib others p g).1.ngeom_data = p.mesh_pt.geom_data.toFinset.card ∧
    (∀ i j, i < (build_it cfg lib others p g).1.ngeom_data →
      j < (build_it cfg lib others p g).1.ngeom_data → i ≠ j →
      (build_it cfg lib others p g).1.geom_data_pt i ≠
        (build_it cfg lib others p g).1.geom_data_pt j) := by
  obtain ⟨v, hv⟩ := Option.isSome_iff_exists.1 hrec
  obtain ⟨c, dim0, tmp, -, -, hsorted, hmem, hb⟩ :=
    build_it_returned cfg lib others p g v hv hfe
  have hnd : tmp.Nodup := nodup_of_sorted_lt tmp hsorted
  rw [hb]
  simp only [MeshAsGeomObject.ngeom_data, MeshAsGeomObject.geom_data_pt]
  refine ⟨trivial, hmem, ?_, ?_⟩
  · rw [← List.toFinset_card_of_nodup hnd]
    congr 1
    ext a
    simp only [List.mem_toFinset, hmem, mem_mesh_geom_data]
  · intro i j hi hj hij heq
    rw [List.getElem?_eq_getElem hi, List.getElem?_eq_getElem hj] at heq
    exact hij ((List.Nodup.getElem_inj_iff hnd).1 (Option.some.inj heq))

/-- C7, on the sample mesh: two elements sharing one `Data` item give three
geometric data, not four. -/
theorem build_it_geom_data_distinct_witness :
    (build_it sample_config sample_backends [] sample_refineable_parameters
      MeshAsGeomObject.initial).1.ngeom_data = 3 :=
  (build_it_geom_data_distinct sample_config sample_backends []
    sample_refineable_parameters MeshAsGeomObject.initial
    (by decide) (by decide)).2.2.1.trans (by decide)

/-- C8. After a completed construction there is one sub-object per element
of the mesh, in the order of the mesh: `nelement()` is the mesh's
`nelement()` and, for every `e` below it, `finite_element_pt(e)` is element
`e` of the mesh cast to a `FiniteElement`. -/
theorem build_it_sub_objects (cfg : BuildConfig)
    (lib : SamplePointContainerBackends) (others : List (Int × Int))
    (p : SamplePointContainerParameters) (g : MeshAsGeomObject)
    (hrec : (select_version cfg p).isSome = true)
    (hfe : all_finite_elements p.mesh_pt) :
    (build_it cfg lib others p g).2 = .returned () ∧
    (build_it cfg lib others p g).1.nelement = p.mesh_pt.nelement ∧
    ∀ (e : Nat) (he : e < p.mesh_pt.Element_pt.length),
      ∃ fe, p.mesh_pt.Element_pt[e].as_finite_element = some fe ∧
        (build_it cfg lib others p g).1.finite_element_pt e = some (some fe) := by
  obtain ⟨v, hv⟩ := Option.isSome_iff_exists.1 hrec
  obtain ⟨c, dim0, tmp, -, -, -, -, hb⟩ := build_it_returned cfg lib others p g v hv hfe
  rw [hb]
  simp only [MeshAsGeomObject.nelement, MeshAsGeomObject.finite_element_pt,
    Mesh.nelement, List.length_map]
  refine ⟨trivial, trivial, ?_⟩
  intro e he
  obtain ⟨fe, hfe1⟩ := Option.isSome_iff_exists.1 (hfe _ (List.getElem_mem he))
  refine ⟨fe, hfe1, ?_⟩
  rw [List.getElem?_map, List.getElem?_eq_getElem he]
  simp [hfe1]

/-- C8, on the sample mesh: two sub-objects for two elements. -/
theorem build_it_sub_objects_witness :
    (build_it sample_config sample_backends [] sample_refineable_parameters
      MeshAsGeomObject.initial).1.nelement = 2 :=
  (build_it_sub_objects sample_config sample_backends []
    sample_refineable_parameters MeshAsGeomObject.initial
    (by decide) (by decide)).2.1

/-! ## Construction: choice of the backend -/

/-- Apart from the version and the container, what `build_it` leaves behind
and how it ends is the same for any two recognised parameter objects that
refer to the same mesh. -/
theorem build_it_independent_of_version (cfg : BuildConfig)
    (lib : SamplePointContainerBackends) (others : List (Int × Int))
    (p1 p2 : SamplePointContainerParameters) (g : MeshAsGeomObject)
    (v1 v2 : Sample_Point_Container_Type)
    (hv1 : select_version cfg p1 = some v1) (hv2 : select_version cfg p2 = some v2)
    (hm : p2.mesh_pt = p1.mesh_pt) :
    (build_it cfg lib others p1 g).1.NLagrangian =
      (build_it cfg lib others p2 g).1.NLagrangian ∧
    (build_it cfg lib others p1 g).1.Ndim = (build_it cfg lib others p2 g).1.Ndim ∧
    (build_it cfg lib others p1 g).1.Sub_geom_object_pt =
      (build_it cfg lib others p2 g).1.Sub_geom_object_pt ∧
    (build_it cfg lib others p1 g).1.Geom_data_pt =
      (build_it cfg lib others p2 g).1.Geom_data_pt ∧
    (build_it cfg lib others p1 g).2 = (build_it cfg lib others p2 g).2 := by
  obtain ⟨c1, hc1⟩ := new_container_of_select cfg lib p1 v1 hv1
  obtain ⟨c2, hc2⟩ := new_container_of_select cfg lib p2 v2 hv2
  unfold build_it
  simp only [hv1, hv2, hm, hc1, hc2]
  rcases hld : local_dim cfg p1.mesh_pt with d | e | _
  · simp only
    cases hm2 : cfg.OOMPH_HAS_MPI <;>
    · simp only [Bool.false_eq_true, if_false, if_true]
      rcases hloop : (element_loop cfg p1.mesh_pt.Element_pt 0
        (resize g.Sub_geom_object_pt p1.mesh_pt.nelement) []).2.2 with u | e | _ <;>
      simp
  · cases hm2 : cfg.OOMPH_HAS_MPI <;> simp
  · cases hm2 : cfg.OOMPH_HAS_MPI <;> simp

theorem select_version_refineable (cfg : BuildConfig) (p : SamplePointContainerParameters)
    (h : p.is_RefineableBinArrayParameters = true) :
    select_version cfg p = some .UseRefineableBinArray := by
  simp [select_version, h]

theorem select_version_non_refineable (cfg : BuildConfig)
    (p : SamplePointContainerParameters)
    (h1 : p.is_RefineableBinArrayParameters = false)
    (h2 : p.is_NonRefineableBinArrayParameters = true) :
    select_version cfg p = some .UseNonRefineableBinArray := by
  simp [select_version, h1, h2]

/-- Once the parameter object is recognised, the version chosen for it
stays in the object, however `build_it` ends. -/
theorem build_it_version (cfg : BuildConfig)
    (lib : SamplePointContainerBackends) (others : List (Int × Int))
    (p : SamplePointContainerParameters) (g : MeshAsGeomObject)
    (v : Sample_Point_Container_Type) (hv : select_version cfg p = some v) :
    (build_it cfg lib others p g).1.Sample_point_container_version = some v := by
  unfold build_it
  simp only [hv]
  cases hm : cfg.OOMPH_HAS_MPI <;>
  · simp only [Bool.false_eq_true, if_false, if_true]
    split <;> [rfl; rfl; (split <;> [rfl; rfl; (split <;> rfl)])]

/-- C9. The backend follows from the type of the parameter object alone: an
object of refineable type leaves the version `UseRefineableBinArray` and,
when construction completes, a `RefineableBinArray` built from it; an object
of non-refineable type leaves `UseNonRefineableBinArray` and a
`NonRefineableBinArray`. For the same mesh both constructions end the same
way with the same dimensions, the same sub-object vector and the same
geometric-data vector, and they complete when the elements are finite
elements. -/
theorem build_it_backend_selected_by_type (cfg : BuildConfig)
    (lib : SamplePointContainerBackends) (others : List (Int × Int))
    (p1 p2 : SamplePointContainerParameters) (g : MeshAsGeomObject)
    (h1 : p1.is_RefineableBinArrayParameters = true)
    (h2 : p2.is_RefineableBinArrayParameters = false)
    (h3 : p2.is_NonRefineableBinArrayParameters = true)
    (hm : p2.mesh_pt = p1.mesh_pt) :
    (build_it cfg lib others p1 g).1.sample_point_container_version =
      some .UseRefineableBinArray ∧
    (build_it cfg lib others p2 g).1.sample_point_container_version =
      some .UseNonRefineableBinArray ∧
    ((build_it cfg lib others p1 g).2 = .returned () →
      (build_it cfg lib others p1 g).1.sample_point_container_pt =
        some ⟨.RefineableBinArray, lib.RefineableBinArray p1⟩) ∧
    ((build_it cfg lib others p2 g).2 = .returned () →
      (build_it cfg lib others p2 g).1.sample_point_container_pt =
        some ⟨.NonRefineableBinArray, lib.NonRefineableBinArray p2⟩) ∧
    (build_it cfg lib others p1 g).1.nlagrangian =
      (build_it cfg lib others p2 g).1.nlagrangian ∧
    (build_it cfg lib others p1 g).1.ndim = (build_it cfg lib others p2 g).1.ndim ∧
    (build_it cfg lib others p1 g).1.Sub_geom_object_pt =
      (build_it cfg lib others p2 g).1.Sub_geom_object_pt ∧
    (build_it cfg lib others p1 g).1.Geom_data_pt =
      (build_it cfg lib others p2 g).1.Geom_data_pt ∧
    (build_it cfg lib others p1 g).2 = (build_it cfg lib others p2 g).2 ∧
    (all_finite_elements p1.mesh_pt →
      (build_it cfg lib others p1 g).2 = .returned () ∧
      (build_it cfg lib others p2 g).2 = .returned ()) := by
  have hv1 := select_version_refineable cfg p1 h1
  have hv2 := select_version_non_refineable cfg p2 h2 h3
  obtain ⟨e1, e2, e3, e4, e5⟩ :=
    build_it_independent_of_version cfg lib others p1 p2 g _ _ hv1 hv2 hm
  have hcont : ∀ (p : SamplePointContainerParameters) (v : Sample_Point_Container_Type)
      (c : SamplePointContainer), select_version cfg p = some v →
      new_container cfg lib p v = some c →
      (build_it cfg lib others p g).2 = .returned () →
      (build_it cfg lib others p g).1.Sample_point_container_pt = some c := by
    intro p v c hv hc
    unfold build_it
    simp only [hv, hc]
    cases hmpi : cfg.OOMPH_HAS_MPI <;>
    · simp only [Bool.false_eq_true, if_false, if_true]
      split <;> [(intro h; cases h); (intro h; cases h);
        (split <;> [(intro h; cases h); (intro h; cases h); (intro _; rfl)])]
  refine ⟨build_it_version cfg lib others p1 g _ hv1,
    build_it_version cfg lib others p2 g _ hv2,
    hcont p1 _ _ hv1 rfl, hcont p2 _ _ hv2 rfl, e1, e2, e3, e4, e5, ?_⟩
  intro hfe
  obtain ⟨c, dim0, tmp, -, -, -, -, hb⟩ :=
    build_it_returned cfg lib others p1 g _ hv1 hfe
  have hr : (build_it cfg lib others p1 g).2 = .returned () := by rw [hb]
  exact ⟨hr, e5 ▸ hr⟩

/-- C9, on the sample mesh: the refineable parameters give the refineable
version, and the geometric data are those of the non-refineable build. -/
theorem build_it_backend_selected_by_type_witness :
    (build_it sample_config sample_backends [] sample_refineable_parameters
      MeshAsGeomObject.initial).1.sample_point_container_version =
      some .UseRefineableBinArray ∧
    (build_it sample_config sample_backends [] sample_refineable_parameters
      MeshAsGeomObject.initial).1.Geom_data_pt =
    (build_it sample_config sample_backends [] sample_non_refineable_parameters
      MeshAsGeomObject.initial).1.Geom_data_pt :=
  have h := build_it_backend_selected_by_type sample_config sample_backends []
    sample_refineable_parameters sample_non_refineable_parameters
    MeshAsGeomObject.initial rfl rfl rfl rfl
  ⟨h.1, h.2.2.2.2.2.2.2.1⟩

/-! ## Construction: elements that are not finite elements -/

theorem element_loop_first_bad (cfg : BuildConfig) (hP : cfg.PARANOID = true)
    (good : List GeneralisedElement) (bad : GeneralisedElement)
    (rest : List GeneralisedElement)
    (pre mid post : List (Option FiniteElement)) (tmp : List Nat)
    (hgood : ∀ el ∈ good, el.as_finite_element.isSome = true)
    (hbad : bad.as_finite_element = none)
    (hlen : mid.length = good.length + 1 + rest.length) :
    ∃ tmp1 : List Nat,
      element_loop cfg (good ++ bad :: rest) pre.length (pre ++ mid ++ post) tmp =
        (pre ++ good.map (fun el => el.as_finite_element) ++
            none :: mid.drop (good.length + 1) ++ post,
          tmp1, .threw .unable_to_dynamic_cast_element) := by
  induction good generalizing pre mid tmp with
  | nil =>
    cases mid with
    | nil => simp only [List.length_nil, List.length_cons] at hlen; omega
    | cons m mid =>
      refine ⟨tmp, ?_⟩
      have hset : (pre ++ m :: mid ++ post).set pre.length bad.as_finite_element =
          pre ++ bad.as_finite_element :: (mid ++ post) := by
        have h0 := set_length_append pre m bad.as_finite_element (mid ++ post)
        simp only [List.append_assoc, List.cons_append] at h0 ⊢
        exact h0
      rw [List.nil_append, element_loop]
      simp only [hset]
      simp [hbad, hP]
  | cons el good ih =>
    cases mid with
    | nil => simp only [List.length_nil, List.length_cons] at hlen; omega
    | cons m mid =>
      obtain ⟨fe, hfe0⟩ := Option.isSome_iff_exists.1 (hgood el (List.mem_cons_self _ _))
      have hset : (pre ++ m :: mid ++ post).set pre.length el.as_finite_element =
          (pre ++ [el.as_finite_element]) ++ mid ++ post := by
        have h0 := set_length_append pre m el.as_finite_element (mid ++ post)
        simp only [List.append_assoc, List.cons_append, List.nil_append] at h0 ⊢
        exact h0
      have hl2 : pre.length + 1 = (pre ++ [el.as_finite_element]).length := by simp
      obtain ⟨tmp1, h1⟩ := ih (pre ++ [el.as_finite_element]) mid
        (insert_geom_data fe tmp) (fun x hx => hgood x (List.mem_cons_of_mem _ hx))
        (by simp only [List.length_cons] at hlen; omega)
      refine ⟨tmp1, ?_⟩
      rw [List.cons_append, element_loop]
      simp only [hset, hl2]
      rw [hfe0] at h1 ⊢
      simp only [h1]
      simp [hfe0]

theorem local_dim_returned_of_head (cfg : BuildConfig) (m : Mesh)
    (h : ∀ el, m.Element_pt[0]? = some el → el.as_finite_element.isSome = true) :
    ∃ dim0, local_dim cfg m = .returned dim0 := by
  unfold local_dim Mesh.finite_element_pt Mesh.nelement
  cases hE : m.Element_pt with
  | nil => simp
  | cons el rest =>
    obtain ⟨fe, hfe⟩ := Option.isSome_iff_exists.1 (h el (by simp [hE]))
    simp [hfe]

theorem local_dim_threw_of_head (cfg : BuildConfig) (hP : cfg.PARANOID = true) (m : Mesh)
    (el : GeneralisedElement) (h : m.Element_pt[0]? = some el)
    (hbad : el.as_finite_element = none) :
    local_dim cfg m = .threw .failed_cast_to_finite_element := by
  unfold local_dim Mesh.finite_element_pt Mesh.nelement
  cases hE : m.Element_pt with
  | nil => simp [hE] at h
  | cons el1 rest =>
    simp only [hE, List.getElem?_cons_zero, Option.some.injEq] at h
    subst h
    simp [hbad, hP]

/-- C10. In a validated build, let element `e` be the first element of the
mesh that cannot be cast to a `FiniteElement`. Then construction throws an
`OomphLibError` while the geometric-data vector and the container pointer
are still as they were found. For `e = 0` the error comes from reading the
dimension of element 0 and no sub-object has been stored; for `e > 0` it is
"Unable to dynamic cast element", thrown in the loop at index `e`: the
sub-objects below `e` are stored and entry `e` holds the null pointer. -/
theorem build_it_throws_at_first_non_finite_element (cfg : BuildConfig)
    (lib : SamplePointContainerBackends) (others : List (Int × Int))
    (p : SamplePointContainerParameters) (g : MeshAsGeomObject)
    (hP : cfg.PARANOID = true)
    (hrec : (select_version cfg p).isSome = true)
    (e : Nat) (he : e < p.mesh_pt.Element_pt.length)
    (hbad : p.mesh_pt.Element_pt[e].as_finite_element = none)
    (hgood : ∀ i < e, ∀ el, p.mesh_pt.Element_pt[i]? = some el →
      el.as_finite_element.isSome = true) :
    (build_it cfg lib others p g).2.is_error = true ∧
    (build_it cfg lib others p g).1.Geom_data_pt = g.Geom_data_pt ∧
    (build_it cfg lib others p g).1.Sample_point_container_pt =
      g.Sample_point_container_pt ∧
    (e = 0 →
      (build_it cfg lib others p g).2 = .threw .failed_cast_to_finite_element ∧
      (build_it cfg lib others p g).1.Sub_geom_object_pt = g.Sub_geom_object_pt) ∧
    (0 < e →
      (build_it cfg lib others p g).2 = .threw .unable_to_dynamic_cast_element ∧
      (build_it cfg lib others p g).1.nelement = p.mesh_pt.nelement ∧
      (∀ i < e, ∀ el, p.mesh_pt.Element_pt[i]? = some el →
        (build_it cfg lib others p g).1.finite_element_pt i =
          some el.as_finite_element) ∧
      (build_it cfg lib others p g).1.finite_element_pt e = some none) := by
  obtain ⟨v, hv⟩ := Option.isSome_iff_exists.1 hrec
  rcases Nat.eq_zero_or_pos e with h0 | hpos
  · subst h0
    have hld := local_dim_threw_of_head cfg hP p.mesh_pt _
      (List.getElem?_eq_getElem he) hbad
    have hb : build_it cfg lib others p g =
        ((if cfg.OOMPH_HAS_MPI = true then
            { g with Mesh_pt := some p.mesh_pt, Sample_point_container_version := some v,
                     Communicator_pt := p.mesh_pt.communicator_pt }
          else
            { g with Mesh_pt := some p.mesh_pt, Sample_point_container_version := some v }),
          .threw .failed_cast_to_finite_element) := by
      unfold build_it
      simp only [hv, hld]
    rw [hb]
    cases cfg.OOMPH_HAS_MPI <;> simp [Outcome.is_error]
  · have hhead : ∀ el, p.mesh_pt.Element_pt[0]? = some el →
        el.as_finite_element.isSome = true := fun el h => hgood 0 hpos el h
    obtain ⟨dim0, hld⟩ := local_dim_returned_of_head cfg p.mesh_pt hhead
    have hsplit : p.mesh_pt.Element_pt.take e ++
        p.mesh_pt.Element_pt[e] :: p.mesh_pt.Element_pt.drop (e + 1) =
        p.mesh_pt.Element_pt := by
      rw [← List.drop_eq_getElem_cons he, List.take_append_drop]
    have htake : (p.mesh_pt.Element_pt.take e).length = e := by
      rw [List.length_take]; omega
    have hgood1 : ∀ el ∈ p.mesh_pt.Element_pt.take e, el.as_finite_element.isSome = true := by
      intro el hel
      obtain ⟨i, hi, rfl⟩ := List.mem_take_iff_getElem.1 hel
      have hi1 : i < e := lt_of_lt_of_le hi (Nat.min_le_left _ _)
      exact hgood i hi1 _ (List.getElem?_eq_getElem (by omega))
    obtain ⟨tmp1, hloop⟩ := element_loop_first_bad cfg hP (p.mesh_pt.Element_pt.take e)
      p.mesh_pt.Element_pt[e] (p.mesh_pt.Element_pt.drop (e + 1)) []
      (resize g.Sub_geom_object_pt p.mesh_pt.nelement) [] [] hgood1 hbad
      (by rw [resize_length, htake, List.length_drop]; unfold Mesh.nelement; omega)
    rw [hsplit] at hloop
    simp only [List.nil_append, List.append_nil, List.length_nil, htake] at hloop
    have hb : (build_it cfg lib others p g).2 = .threw .unable_to_dynamic_cast_element ∧
        (build_it cfg lib others p g).1.Geom_data_pt = g.Geom_data_pt ∧
        (build_it cfg lib others p g).1.Sample_point_container_pt =
          g.Sample_point_container_pt ∧
        (build_it cfg lib others p g).1.Sub_geom_object_pt =
          (p.mesh_pt.Element_pt.take e).map (fun el => el.as_finite_element) ++
            none :: (resize g.Sub_geom_object_pt p.mesh_pt.nelement).drop (e + 1) := by
      unfold build_it
      simp only [hv, hld]
      cases cfg.OOMPH_HAS_MPI <;> simp [hloop]
    obtain ⟨hb1, hb2, hb3, hb4⟩ := hb
    have hmaplen : ((p.mesh_pt.Element_pt.take e).map
        (fun el => el.as_finite_element)).length = e := by
      rw [List.length_map, htake]
    refine ⟨by rw [hb1]; rfl, hb2, hb3, fun h => absurd h (by omega), fun _ => ?_⟩
    refine ⟨hb1, ?_, ?_, ?_⟩
    · simp only [MeshAsGeomObject.nelement, hb4, List.length_append, hmaplen,
        List.length_cons, List.length_drop, resize_length]
      unfold Mesh.nelement
      omega
    · intro i hi el hel
      simp only [MeshAsGeomObject.finite_element_pt, hb4]
      rw [List.getElem?_append_left (by rw [hmaplen]; exact hi), List.getElem?_map,
        List.getElem?_take_of_lt hi, hel]
      rfl
    · simp only [MeshAsGeomObject.finite_element_pt, hb4]
      rw [List.getElem?_append_right (by rw [hmaplen]), hmaplen, Nat.sub_self]
      simp

/-- C10, on the sample mesh whose second element is not a finite element:
the validated build throws at index 1 and has built no geometric data. -/
theorem build_it_throws_at_first_non_finite_element_witness :
    (MeshAsGeomObject.construct sample_config sample_backends []
        sample_foreign_parameters).2 = .threw .unable_to_dynamic_cast_element ∧
    (MeshAsGeomObject.construct sample_config sample_backends []
        sample_foreign_parameters).1.Geom_data_pt = [] := by
  have h := build_it_throws_at_first_non_finite_element sample_config sample_backends []
    sample_foreign_parameters MeshAsGeomObject.initial rfl (by decide) 1 (by decide)
    rfl (by
      intro i hi el hel
      have hi0 : i = 0 := by omega
      subst hi0
      cases hel
      rfl)
  exact ⟨(h.2.2.2.2 (by decide)).1, h.2.1⟩

/-! ## Element status codes -/

/-- C11. The enumeration `enum{ New, Exists, Not_found}` gives `New` the
value 0, `Exists` the value 1 and `Not_found` the value 2; the codes that
the comment on `Located_element_status` documents (2, 1, 0) are those of
`New` and `Not_found` swapped. -/
theorem Multi_domain_functions.element_status_values :
    Multi_domain_functions.Element_status.New.value = 0 ∧
    Multi_domain_functions.Element_status.Exists.value = 1 ∧
    Multi_domain_functions.Element_status.Not_found.value = 2 ∧
    Multi_domain_functions.Element_status.New.value ≠
      Multi_domain_functions.documented_status_code .New ∧
    Multi_domain_functions.Element_status.Not_found.value ≠
      Multi_domain_functions.documented_status_code .Not_found := by
  decide

/-! ## The container is built by the constructor -/

/-- C12, refuted as stated: constructing the object for the sample mesh
leaves a container although no `locate_zeta` query has been made, and a
query on an object without container finds no container to search. -/
theorem construction_creates_container_counterexample :
    MeshAsGeomObject.initial.sample_point_container_pt.isSome = false ∧
    (MeshAsGeomObject.construct sample_config sample_backends []
      sample_refineable_parameters).2 = .returned () ∧
    (MeshAsGeomObject.construct sample_config sample_backends []
      sample_refineable_parameters).1.sample_point_container_pt.isSome = true ∧
    (MeshAsGeomObject.initial.locate_zeta sample_config [⟨0⟩, ⟨0⟩] [] false).map
      LocateResult.located = .undefined := by
  refine ⟨rfl, by decide, by decide, rfl⟩

/-- C12, amended. The container is built eagerly: a construction that
completes (recognised parameter object, finite elements) has created the
sample point container, namely the one the final `switch` of `build_it`
builds from the parameter object for the selected version, before any
`locate_zeta` query is made; a `locate_zeta` call leaves the container
pointer as it finds it. -/
theorem build_it_creates_container (cfg : BuildConfig)
    (lib : SamplePointContainerBackends) (others : List (Int × Int))
    (p : SamplePointContainerParameters) (g : MeshAsGeomObject)
    (hrec : (select_version cfg p).isSome = true)
    (hfe : all_finite_elements p.mesh_pt) :
    (build_it cfg lib others p g).2 = .returned () ∧
    (∃ v c, select_version cfg p = some v ∧ new_container cfg lib p v = some c ∧
      (build_it cfg lib others p g).1.sample_point_container_pt = some c) ∧
    ∀ (g0 : MeshAsGeomObject) (zeta s : List Double) (flag : Bool),
      (g0.locate_zeta_call cfg zeta s flag).1.sample_point_container_pt =
        g0.sample_point_container_pt := by
  obtain ⟨v, hv⟩ := Option.isSome_iff_exists.1 hrec
  obtain ⟨c, dim0, tmp, hc, -, -, -, hb⟩ := build_it_returned cfg lib others p g v hv hfe
  rw [hb]
  exact ⟨rfl, ⟨v, c, hv, hc, rfl⟩, fun _ _ _ _ => rfl⟩

/-- C12 amended, on the sample mesh: the constructed object holds a
refineable bin array. -/
theorem build_it_creates_container_witness :
    ∃ c, (build_it sample_config sample_backends [] sample_refineable_parameters
        MeshAsGeomObject.initial).1.sample_point_container_pt = some c ∧
      c.kind = .RefineableBinArray := by
  obtain ⟨-, ⟨v, c, hv, hc, h⟩, -⟩ := build_it_creates_container sample_config
    sample_backends [] sample_refineable_parameters MeshAsGeomObject.initial
    (by decide) (by decide)
  refine ⟨c, h, ?_⟩
  have hv1 : select_version sample_config sample_refineable_parameters =
      some .UseRefineableBinArray := rfl
  rw [hv1] at hv
  cases hv
  cases hc
  rfl

/-! ## Repeated queries -/

theorem DistributedZetaSearch.ring_reaches (N o j : Nat) (hj : j < N) :
    ∃ m, m ≤ N - 1 ∧ (o + m) % N = j := by
  have ho : o % N < N := Nat.mod_lt _ (by omega)
  by_cases h : o % N ≤ j
  · refine ⟨j - o % N, by omega, ?_⟩
    rw [Nat.add_mod, Nat.mod_eq_of_lt (show j - o % N < N by omega),
      show o % N + (j - o % N) = j by omega, Nat.mod_eq_of_lt hj]
  · refine ⟨j + N - o % N, by omega, ?_⟩
    rw [Nat.add_mod, Nat.mod_eq_of_lt (show j + N - o % N < N by omega),
      show o % N + (j + N - o % N) = j + N by omega, Nat.add_mod_right,
      Nat.mod_eq_of_lt hj]

theorem DistributedZetaSearch.invariant_initial (N : Nat)
    (locates : Nat → List Double → Bool) (queries : List (Nat × List Double))
    (hq : ∀ q ∈ queries, q.1 < N) :
    DistributedZetaSearch.invariant N locates queries 0
      (DistributedZetaSearch.search locates
        { pending := queries.map (fun q => ⟨q.1, q.1, q.2⟩), located := [],
          exchanges := 0 }) := by
  refine ⟨?_, ?_, ?_, rfl⟩
  · intro r hr
    simp only [DistributedZetaSearch.search, List.mem_filter, List.mem_map] at hr
    obtain ⟨⟨q, hqm, rfl⟩, hloc⟩ := hr
    have hlt := hq q hqm
    simp only [Nat.add_zero, Nat.mod_eq_of_lt hlt, true_and]
    intro m hm
    have hm0 : m = 0 := by omega
    subst hm0
    simpa [Nat.mod_eq_of_lt hlt] using hloc
  · intro r hr
    simp only [DistributedZetaSearch.search, List.nil_append, List.mem_filter,
      List.mem_map] at hr
    obtain ⟨⟨q, hqm, rfl⟩, hloc⟩ := hr
    exact ⟨hq q hqm, hloc⟩
  · intro q hqm
    simp only [DistributedZetaSearch.search, List.nil_append, List.mem_filter,
      List.mem_map]
    cases hloc : locates q.1 q.2
    · exact Or.inr ⟨⟨q.1, q.1, q.2⟩, ⟨⟨q, hqm, rfl⟩, by simp [hloc]⟩, rfl, rfl⟩
    · exact Or.inl ⟨⟨q.1, q.1, q.2⟩, ⟨⟨q, hqm, rfl⟩, hloc⟩, rfl, rfl⟩

theorem DistributedZetaSearch.invariant_step (N : Nat) (hN : 0 < N)
    (locates : Nat → List Double → Bool) (queries : List (Nat × List Double))
    (k : Nat) (st : DistributedZetaSearch.SearchState)
    (h : DistributedZetaSearch.invariant N locates queries k st) :
    DistributedZetaSearch.invariant N locates queries (k + 1)
      (DistributedZetaSearch.search locates (DistributedZetaSearch.exchange N st)) := by
  obtain ⟨hp, hl, hc, he⟩ := h
  refine ⟨?_, ?_, ?_, ?_⟩
  · intro r hr
    simp only [DistributedZetaSearch.search, DistributedZetaSearch.exchange,
      List.mem_filter, List.mem_map] at hr
    obtain ⟨⟨r0, hr0, rfl⟩, hloc⟩ := hr
    obtain ⟨hh, hu⟩ := hp r0 hr0
    have hholder : (r0.holder + 1) % N = (r0.origin + (k + 1)) % N := by
      rw [hh, Nat.mod_add_mod, Nat.add_assoc]
    refine ⟨hholder, ?_⟩
    intro m hm
    rcases Nat.lt_or_ge m (k + 1) with hlt | hge
    · exact hu m (by omega)
    · have hmk : m = k + 1 := by omega
      subst hmk
      simp only at hloc ⊢
      rw [← hholder]
      simpa using hloc
  · intro r hr
    simp only [DistributedZetaSearch.search, DistributedZetaSearch.exchange,
      List.mem_append, List.mem_filter, List.mem_map] at hr
    rcases hr with hr | ⟨⟨r0, hr0, rfl⟩, hloc⟩
    · exact hl r hr
    · exact ⟨Nat.mod_lt _ hN, hloc⟩
  · intro q hq
    rcases hc q hq with ⟨r, hr, h1, h2⟩ | ⟨r, hr, h1, h2⟩
    · exact Or.inl ⟨r, by simp [DistributedZetaSearch.search,
        DistributedZetaSearch.exchange, hr], h1, h2⟩
    · cases hloc : locates ((r.holder + 1) % N) r.zeta
      · refine Or.inr ⟨{ r with holder := (r.holder + 1) % N }, ?_, h1, h2⟩
        simp only [DistributedZetaSearch.search, DistributedZetaSearch.exchange,
          List.mem_filter, List.mem_map]
        exact ⟨⟨r, hr, rfl⟩, by simp [hloc]⟩
      · refine Or.inl ⟨{ r with holder := (r.holder + 1) % N }, ?_, h1, h2⟩
        simp only [DistributedZetaSearch.search, DistributedZetaSearch.exchange,
          List.mem_append, List.mem_filter, List.mem_map]
        exact Or.inr ⟨⟨r, hr, rfl⟩, hloc⟩
  · simp only [DistributedZetaSearch.search, DistributedZetaSearch.exchange, he]

theorem DistributedZetaSearch.ring_steps_spec (N : Nat) (hN : 0 < N)
    (locates : Nat → List Double → Bool) (queries : List (Nat × List Double))
    (steps k : Nat) (st : DistributedZetaSearch.SearchState)
    (h : DistributedZetaSearch.invariant N locates queries k st) :
    (DistributedZetaSearch.ring_steps N locates steps st).exchanges ≤ k + steps ∧
    (st.pending = [] →
      (DistributedZetaSearch.ring_steps N locates steps st).exchanges = k) ∧
    (∀ r ∈ (DistributedZetaSearch.ring_steps N locates steps st).pending,
      ∀ m ≤ k + steps, locates ((r.origin + m) % N) r.zeta = false) ∧
    (∀ r ∈ (DistributedZetaSearch.ring_steps N locates steps st).located,
      r.holder < N ∧ locates r.holder r.zeta = true) ∧
    (∀ q ∈ queries,
      (∃ r ∈ (DistributedZetaSearch.ring_steps N locates steps st).located,
        r.origin = q.1 ∧ r.zeta = q.2) ∨
      (∃ r ∈ (DistributedZetaSearch.ring_steps N locates steps st).pending,
        r.origin = q.1 ∧ r.zeta = q.2)) := by
  induction steps generalizing k st with
  | zero =>
    obtain ⟨hp, hl, hc, he⟩ := h
    simp only [DistributedZetaSearch.ring_steps, Nat.add_zero]
    exact ⟨by omega, fun _ => he, fun r hr m hm => (hp r hr).2 m hm, hl, hc⟩
  | succ steps ih =>
    rw [DistributedZetaSearch.ring_steps]
    by_cases hempty : st.pending.isEmpty = true
    · simp only [hempty, if_true]
      obtain ⟨hp, hl, hc, he⟩ := h
      have hnil : st.pending = [] := List.isEmpty_iff.1 hempty
      refine ⟨by omega, fun _ => he, ?_, hl, hc⟩
      intro r hr
      rw [hnil] at hr
      cases hr
    · simp only [hempty, Bool.false_eq_true, if_false]
      obtain ⟨i1, -, i3, i4, i5⟩ := ih (k + 1) _
        (DistributedZetaSearch.invariant_step N hN locates queries k st h)
      refine ⟨by omega, ?_, ?_, i4, i5⟩
      · intro hnil
        rw [hnil] at hempty
        exact absurd rfl hempty
      · intro r hr m hm
        exact i3 r hr m (by omega)

/-- C14. In the ring search over `N >= 1` partitions, for queries that
originate on partitions of the ring: the search makes at most `N - 1`
exchange steps, and none when `N = 1`; when it is done every query is either
located, on a partition of the ring whose `locate_zeta` finds it, or left
pending, and then no partition of the ring can locate it. -/
theorem DistributedZetaSearch.ring_termination (N : Nat)
    (locates : Nat → List Double → Bool) (queries : List (Nat × List Double))
    (hN : 0 < N) (hq : ∀ q ∈ queries, q.1 < N) :
    (DistributedZetaSearch.run N locates queries).exchanges ≤ N - 1 ∧
    (N = 1 → (DistributedZetaSearch.run N locates queries).exchanges = 0) ∧
    (∀ q ∈ queries,
      (∃ r ∈ (DistributedZetaSearch.run N locates queries).located,
        r.origin = q.1 ∧ r.zeta = q.2 ∧ r.holder < N ∧
          locates r.holder r.zeta = true) ∨
      (∃ r ∈ (DistributedZetaSearch.run N locates queries).pending,
        r.origin = q.1 ∧ r.zeta = q.2 ∧ ∀ j < N, locates j q.2 = false)) := by
  obtain ⟨h1, -, h3, h4, h5⟩ := DistributedZetaSearch.ring_steps_spec N hN locates queries
    (N - 1) 0 _ (DistributedZetaSearch.invariant_initial N locates queries hq)
  refine ⟨by simpa [DistributedZetaSearch.run] using h1, ?_, ?_⟩
  · intro hone
    have : (DistributedZetaSearch.run N locates queries).exchanges ≤ 0 := by
      simpa [DistributedZetaSearch.run, hone] using h1
    omega
  · intro q hqm
    rcases h5 q hqm with ⟨r, hr, e1, e2⟩ | ⟨r, hr, e1, e2⟩
    · exact Or.inl ⟨r, hr, e1, e2, (h4 r hr).1, (h4 r hr).2⟩
    · refine Or.inr ⟨r, hr, e1, e2, ?_⟩
      intro j hj
      obtain ⟨m, hm, hmj⟩ := DistributedZetaSearch.ring_reaches N r.origin j hj
      have := h3 r hr m (by omega)
      rw [hmj, e2] at this
      exact this

/-- C14, on the sample search over three partitions: two exchange steps at
most, and the query for a point that no partition holds stays pending. -/
theorem DistributedZetaSearch.ring_termination_witness :
    (DistributedZetaSearch.run 3 DistributedZetaSearch.sample_locates
      DistributedZetaSearch.sample_queries).exchanges ≤ 2 ∧
    (DistributedZetaSearch.run 3 DistributedZetaSearch.sample_locates
      DistributedZetaSearch.sample_queries).pending = [⟨2, 1, [⟨7⟩]⟩] :=
  ⟨(DistributedZetaSearch.ring_termination 3 DistributedZetaSearch.sample_locates
    DistributedZetaSearch.sample_queries (by decide) (by decide)).1, by decide⟩

/-! ## Dof numbers of the Foeppl von Karman element -/

theorem FoepplvonKarman.node_body_eq (el : FoepplvonKarman.TFoepplvonKarmanDisplacementElement)
    (n : Nat) (L : List (Nat × Nat)) :
    FoepplvonKarman.node_body el n L =
      ((FoepplvonKarman.unpinned_values el n).map
        (FoepplvonKarman.written_pair el)).reverse ++ L := by
  unfold FoepplvonKarman.node_body FoepplvonKarman.unpinned_values
  simp only [List.map_cons, List.map_nil, List.filter_cons, List.filter_nil,
    FoepplvonKarman.written_pair, FoepplvonKarman.dof_type_of_value, decide_eq_true_eq]
  by_cases h0 : el.nodal_local_eqn n 0 ≥ 0 <;>
  by_cases h1 : el.nodal_local_eqn n 1 ≥ 0 <;>
  by_cases h2 : el.nodal_local_eqn n 2 ≥ 0 <;>
  by_cases h3 : el.nodal_local_eqn n 3 ≥ 0 <;>
  simp [h0, h1, h2, h3, FoepplvonKarman.written_pair, FoepplvonKarman.dof_type_of_value]

theorem FoepplvonKarman.foldl_node_body (el : FoepplvonKarman.TFoepplvonKarmanDisplacementElement)
    (ns : List Nat) (L : List (Nat × Nat)) :
    ns.foldl (fun acc n => FoepplvonKarman.node_body el n acc) L =
      (((ns.map (FoepplvonKarman.unpinned_values el)).flatten).map
        (FoepplvonKarman.written_pair el)).reverse ++ L := by
  induction ns generalizing L with
  | nil => simp
  | cons n ns ih =>
    rw [List.foldl_cons, ih, FoepplvonKarman.node_body_eq]
    simp only [List.map_cons, List.flatten_cons, List.map_append, List.reverse_append,
      List.append_assoc]

theorem FoepplvonKarman.get_dof_numbers_eq
    (el : FoepplvonKarman.TFoepplvonKarmanDisplacementElement) (L : List (Nat × Nat)) :
    FoepplvonKarman.get_dof_numbers_for_unknowns el L =
      ((FoepplvonKarman.unpinned_unknowns el).map
        (FoepplvonKarman.written_pair el)).reverse ++ L :=
  FoepplvonKarman.foldl_node_body el (List.range el.nnode) L

theorem FoepplvonKarman.mem_unpinned_values
    (el : FoepplvonKarman.TFoepplvonKarmanDisplacementElement) (m : Nat) (nv : Nat × Nat) :
    nv ∈ FoepplvonKarman.unpinned_values el m ↔
      nv.1 = m ∧ nv.2 < 4 ∧ el.nodal_local_eqn nv.1 nv.2 ≥ 0 := by
  obtain ⟨n, v⟩ := nv
  unfold FoepplvonKarman.unpinned_values
  rw [List.mem_filter, List.mem_map]
  simp only [List.mem_cons, List.mem_singleton, List.not_mem_nil, or_false,
    Prod.mk.injEq, decide_eq_true_eq]
  constructor
  · rintro ⟨⟨w, hw, rfl, rfl⟩, hpin⟩
    exact ⟨rfl, by omega, hpin⟩
  · rintro ⟨rfl, hv, hpin⟩
    exact ⟨⟨v, by omega, rfl, rfl⟩, hpin⟩

theorem FoepplvonKarman.mem_unpinned_unknowns
    (el : FoepplvonKarman.TFoepplvonKarmanDisplacementElement) (nv : Nat × Nat) :
    nv ∈ FoepplvonKarman.unpinned_unknowns el ↔
      nv.1 < el.nnode ∧ nv.2 < 4 ∧ el.nodal_local_eqn nv.1 nv.2 ≥ 0 := by
  unfold FoepplvonKarman.unpinned_unknowns
  rw [List.mem_flatten]
  constructor
  · rintro ⟨l, hl, hnv⟩
    obtain ⟨m, hm, rfl⟩ := List.mem_map.1 hl
    obtain ⟨h1, h2, h3⟩ := (FoepplvonKarman.mem_unpinned_values el m nv).1 hnv
    exact ⟨h1 ▸ List.mem_range.1 hm, h2, h3⟩
  · rintro ⟨hn, hv, hpin⟩
    exact ⟨_, List.mem_map.2 ⟨nv.1, List.mem_range.2 hn, rfl⟩,
      (FoepplvonKarman.mem_unpinned_values el nv.1 nv).2 ⟨rfl, hv, hpin⟩⟩

theorem FoepplvonKarman.nodup_unpinned_unknowns
    (el : FoepplvonKarman.TFoepplvonKarmanDisplacementElement) :
    (FoepplvonKarman.unpinned_unknowns el).Nodup := by
  unfold FoepplvonKarman.unpinned_unknowns
  rw [List.nodup_flatten]
  constructor
  · intro l hl
    obtain ⟨m, -, rfl⟩ := List.mem_map.1 hl
    unfold FoepplvonKarman.unpinned_values
    refine List.Nodup.filter _ (List.Nodup.map ?_ (by decide))
    intro a b hab
    exact (Prod.mk.injEq _ _ _ _ ▸ hab).2
  · rw [List.pairwise_map]
    refine (List.nodup_range el.nnode).imp ?_
    intro a b hab x hxa hxb
    have h1 := ((FoepplvonKarman.mem_unpinned_values el a x).1 hxa).1
    have h2 := ((FoepplvonKarman.mem_unpinned_values el b x).1 hxb).1
    exact hab (h1.symm.trans h2)

/-- C15. Every pair that `get_dof_numbers_for_unknowns` puts in front of the
list belongs to an unpinned nodal value `(n, v)` of the element and carries
the dof type of `v`: 2 for value 0 (w), 0 or 1 for value 1 (Laplacian), 3
for value 2 (U_x), 4 for value 3 (U_y); so every dof type written is below
`ndof_types() = 5`. Conversely each unpinned value has its pair in the list.
The first entry is the global equation number as it fits the temporary pair
of two `unsigned`. -/
theorem FoepplvonKarman.dof_types_by_value
    (el : FoepplvonKarman.TFoepplvonKarmanDisplacementElement) (L : List (Nat × Nat)) :
    FoepplvonKarman.ndof_types = 5 ∧
    ∃ added, FoepplvonKarman.get_dof_numbers_for_unknowns el L = added ++ L ∧
      (∀ p ∈ added, p.2 < FoepplvonKarman.ndof_types ∧
        ∃ n v, n < el.nnode ∧ el.nodal_local_eqn n v ≥ 0 ∧
          p.1 = FoepplvonKarman.to_pair_first
            (el.eqn_number (el.nodal_local_eqn n v).toNat) ∧
          ((v = 0 ∧ p.2 = 2) ∨ (v = 1 ∧ (p.2 = 0 ∨ p.2 = 1)) ∨
            (v = 2 ∧ p.2 = 3) ∨ (v = 3 ∧ p.2 = 4))) ∧
      (∀ n v, n < el.nnode → v < 4 → el.nodal_local_eqn n v ≥ 0 →
        (FoepplvonKarman.to_pair_first (el.eqn_number (el.nodal_local_eqn n v).toNat),
          FoepplvonKarman.dof_type_of_value el n v) ∈ added) := by
  refine ⟨rfl, _, FoepplvonKarman.get_dof_numbers_eq el L, ?_, ?_⟩
  · intro p hp
    rw [List.mem_reverse, List.mem_map] at hp
    obtain ⟨⟨n, v⟩, hnv, rfl⟩ := hp
    obtain ⟨hn, hv, hpin⟩ := (FoepplvonKarman.mem_unpinned_unknowns el (n, v)).1 hnv
    simp only at hn hv hpin
    have hcases : v = 0 ∨ v = 1 ∨ v = 2 ∨ v = 3 := by omega
    rcases hcases with rfl | rfl | rfl | rfl
    · exact ⟨show _ < 5 by simp [FoepplvonKarman.written_pair, FoepplvonKarman.dof_type_of_value], n, 0, hn, hpin, rfl, Or.inl ⟨rfl, rfl⟩⟩
    · have h01 : (FoepplvonKarman.written_pair el (n, 1)).2 = 0 ∨
          (FoepplvonKarman.written_pair el (n, 1)).2 = 1 := by
        simp only [FoepplvonKarman.written_pair, FoepplvonKarman.dof_type_of_value]
        split
        · exact Or.inr rfl
        · exact Or.inl rfl
      refine ⟨?_, n, 1, hn, hpin, rfl, Or.inr (Or.inl ⟨rfl, h01⟩)⟩
      unfold FoepplvonKarman.ndof_types
      omega
    · exact ⟨show _ < 5 by simp [FoepplvonKarman.written_pair, FoepplvonKarman.dof_type_of_value], n, 2, hn, hpin, rfl, Or.inr (Or.inr (Or.inl ⟨rfl, rfl⟩))⟩
    · exact ⟨show _ < 5 by simp [FoepplvonKarman.written_pair, FoepplvonKarman.dof_type_of_value], n, 3, hn, hpin, rfl, Or.inr (Or.inr (Or.inr ⟨rfl, rfl⟩))⟩
  · intro n v hn hv hpin
    rw [List.mem_reverse, List.mem_map]
    exact ⟨(n, v), (FoepplvonKarman.mem_unpinned_unknowns el (n, v)).2 ⟨hn, hv, hpin⟩, rfl⟩

/-- C16, evaluated on the sample element: the unpinned value w of node 0 has
the global equation number `2^32 + 5`, an `unsigned long`, and the pair
written for it has first entry 5: the number went through the temporary
`std::pair<unsigned,unsigned>` and lost its upper bits. -/
theorem FoepplvonKarman.global_equation_number_truncated :
    FoepplvonKarman.sample_element.nodal_local_eqn 0 0 = 0 ∧
    FoepplvonKarman.sample_element.eqn_number 0 = 2 ^ 32 + 5 ∧
    FoepplvonKarman.sample_element.eqn_number 0 < 2 ^ 64 ∧
    FoepplvonKarman.get_dof_numbers_for_unknowns FoepplvonKarman.sample_element [] =
      [(103, 4), (102, 3), (101, 0), (5, 2)] := by
  decide

/-- C17, evaluated on the sample element: its node lies on boundary 2 only,
so it is a boundary node, yet the unpinned Laplacian (global equation 101)
gets dof type 0, the type of interior nodes; only the boundaries 0 and 1 are
asked for. -/
theorem FoepplvonKarman.laplacian_type_of_node_on_other_boundary :
    (FoepplvonKarman.sample_element.node_pt 0).is_boundary_node = true ∧
    FoepplvonKarman.sample_element.nodal_local_eqn 0 1 = 1 ∧
    FoepplvonKarman.sample_element.eqn_number 1 = 101 ∧
    (101, 0) ∈ FoepplvonKarman.get_dof_numbers_for_unknowns
      FoepplvonKarman.sample_element [] ∧
    (101, 1) ∉ FoepplvonKarman.get_dof_numbers_for_unknowns
      FoepplvonKarman.sample_element [] := by
  decide

/-- C18. `get_dof_numbers_for_unknowns` only prepends: the list on return is
the incoming list `L`, unchanged, preceded by one pair for each unknown
`(n, v)` with `n < nnode()`, `v` in 0..3 and `nodal_local_eqn(n, v) >= 0`,
the pair of the last unknown first; unknowns with a negative local equation
number contribute nothing. -/
theorem FoepplvonKarman.get_dof_numbers_only_prepends
    (el : FoepplvonKarman.TFoepplvonKarmanDisplacementElement) (L : List (Nat × Nat)) :
    FoepplvonKarman.get_dof_numbers_for_unknowns el L =
      ((FoepplvonKarman.unpinned_unknowns el).map
        (FoepplvonKarman.written_pair el)).reverse ++ L ∧
    (FoepplvonKarman.unpinned_unknowns el).Nodup ∧
    (∀ n v, (n, v) ∈ FoepplvonKarman.unpinned_unknowns el ↔
      n < el.nnode ∧ v < 4 ∧ el.nodal_local_eqn n v ≥ 0) ∧
    (FoepplvonKarman.get_dof_numbers_for_unknowns el L).length =
      (FoepplvonKarman.unpinned_unknowns el).length + L.length ∧
    (FoepplvonKarman.get_dof_numbers_for_unknowns el L).drop
      (FoepplvonKarman.unpinned_unknowns el).length = L := by
  refine ⟨FoepplvonKarman.get_dof_numbers_eq el L,
    FoepplvonKarman.nodup_unpinned_unknowns el,
    fun n v => FoepplvonKarman.mem_unpinned_unknowns el (n, v), ?_, ?_⟩
  · rw [FoepplvonKarman.get_dof_numbers_eq]
    simp
  · rw [FoepplvonKarman.get_dof_numbers_eq]
    have hlen : (FoepplvonKarman.unpinned_unknowns el).length =
        ((FoepplvonKarman.unpinned_unknowns el).map
          (FoepplvonKarman.written_pair el)).reverse.length := by simp
    rw [hlen, List.drop_left]

/-! ## The polar traction element -/

/-! ## The polar traction element -/

theorem PolarNavierStokes.foldl_add_eq (f : Nat → ℚ) (ls : List Nat) (a : ℚ) :
    ls.foldl (fun acc l => acc + f l) a = a + (ls.map f).sum := by
  induction ls generalizing a with
  | nil => simp
  | cons l ls ih =>
    simp only [List.foldl_cons, ih, List.map_cons, List.sum_cons]
    ring

theorem PolarNavierStokes.toNat_eq_iff (e : Int) (j : Nat) :
    (e ≥ 0 ∧ j = e.toNat) ↔ e = (j : Int) := by
  omega

theorem PolarNavierStokes.entry0_interpolate (el : PolarNavierStokes.PolarNavierStokesTractionElement)
    (field : Nat → Nat → ℚ) (ipt : Nat) (hdim : 0 < el.Dim) :
    PolarNavierStokes.entry0 (PolarNavierStokes.interpolate el field ipt) =
      ((List.range el.nnode).map (fun l => field l 0 * el.shape_at_knot ipt l)).sum := by
  unfold PolarNavierStokes.entry0 PolarNavierStokes.interpolate
  obtain ⟨d, hd⟩ := Nat.exists_eq_succ_of_ne_zero (Nat.pos_iff_ne_zero.1 hdim)
  rw [hd, List.range_succ_eq_map]
  simp only [List.map_cons, List.headD_cons]
  rw [PolarNavierStokes.foldl_add_eq]
  simp

theorem PolarNavierStokes.entry0_interpolate_perturb
    (el : PolarNavierStokes.PolarNavierStokesTractionElement) (ipt j : Nat) (h : ℚ)
    (hdim : 0 < el.Dim) :
    PolarNavierStokes.entry0 (PolarNavierStokes.interpolate (PolarNavierStokes.perturb el j h)
        (PolarNavierStokes.perturb el j h).nodal_value ipt) =
      PolarNavierStokes.entry0 (PolarNavierStokes.interpolate el el.nodal_value ipt) +
        h * PolarNavierStokes.shape_sum_of_unknown el ipt j (List.range el.nnode) := by
  rw [PolarNavierStokes.entry0_interpolate el _ _ hdim,
    PolarNavierStokes.entry0_interpolate (PolarNavierStokes.perturb el j h) _ _ hdim]
  unfold PolarNavierStokes.shape_sum_of_unknown
  show ((List.range el.nnode).map (fun l =>
      (el.nodal_value l 0 + (if el.u_local_eqn l 0 = (j : Int) then h else 0)) *
        el.shape_at_knot ipt l)).sum = _
  generalize List.range el.nnode = ls
  induction ls with
  | nil => simp
  | cons l ls ih =>
    simp only [List.map_cons, List.sum_cons, ih]
    split <;> ring

theorem PolarNavierStokes.velocity_jacobian_fold
    (el : PolarNavierStokes.PolarNavierStokesTractionElement) (ipt l : Nat)
    (local_eqn : Int) (x0 W : ℚ) (ls : List Nat) (jac : Nat → Nat → ℚ) (i j : Nat) :
    (ls.foldl (fun jac l2 =>
        if el.u_local_eqn l2 0 ≥ 0 then
          PolarNavierStokes.sub_matrix_entry jac local_eqn.toNat (el.u_local_eqn l2 0).toNat
            ((el.Boundary : ℚ) * el.Eta * 3 * (el.shape_at_knot ipt l2 / x0) *
              el.shape_at_knot ipt l * x0 * el.Alpha * W)
        else jac) jac) i j =
      jac i j - (if i = local_eqn.toNat then
        (el.Boundary : ℚ) * el.Eta * 3 *
          (PolarNavierStokes.shape_sum_of_unknown el ipt j ls / x0) *
          el.shape_at_knot ipt l * x0 * el.Alpha * W
        else 0) := by
  induction ls generalizing jac with
  | nil => simp [PolarNavierStokes.shape_sum_of_unknown]
  | cons l2 ls ih =>
    rw [List.foldl_cons, ih]
    simp only [PolarNavierStokes.shape_sum_of_unknown, List.map_cons, List.sum_cons]
    by_cases h0 : el.u_local_eqn l2 0 ≥ 0
    · rw [if_pos h0]
      simp only [PolarNavierStokes.sub_matrix_entry]
      split_ifs <;> first | (exfalso; omega) | ring
    · rw [if_neg h0]
      split_ifs <;> first | (exfalso; omega) | ring

theorem PolarNavierStokes.pressure_jacobian_fold
    (el : PolarNavierStokes.PolarNavierStokesTractionElement) (ipt : Nat)
    (x0 W : ℚ) (ls : List Nat) (jac : Nat → Nat → ℚ) (i j : Nat) :
    (ls.foldl (fun jac l2 =>
        if el.u_local_eqn l2 0 ≥ 0 then
          PolarNavierStokes.add_matrix_entry jac (PolarNavierStokes.pext_local_eqn el).toNat
            (el.u_local_eqn l2 0).toNat (el.shape_at_knot ipt l2 * x0 * el.Alpha * W)
        else jac) jac) i j =
      jac i j + (if i = (PolarNavierStokes.pext_local_eqn el).toNat then
        PolarNavierStokes.shape_sum_of_unknown el ipt j ls * x0 * el.Alpha * W
        else 0) := by
  induction ls generalizing jac with
  | nil => simp [PolarNavierStokes.shape_sum_of_unknown]
  | cons l2 ls ih =>
    rw [List.foldl_cons, ih]
    simp only [PolarNavierStokes.shape_sum_of_unknown, List.map_cons, List.sum_cons]
    by_cases h0 : el.u_local_eqn l2 0 ≥ 0
    · rw [if_pos h0]
      simp only [PolarNavierStokes.add_matrix_entry]
      split_ifs <;> first | (exfalso; omega) | ring
    · rw [if_neg h0]
      split_ifs <;> first | (exfalso; omega) | ring

theorem PolarNavierStokes.pext_perturb (el : PolarNavierStokes.PolarNavierStokesTractionElement)
    (j : Nat) (h : ℚ) :
    PolarNavierStokes.pext (PolarNavierStokes.perturb el j h) =
      PolarNavierStokes.pext el +
        h * (if PolarNavierStokes.pext_local_eqn el = (j : Int) then 1 else 0) := by
  unfold PolarNavierStokes.pext PolarNavierStokes.pext_local_eqn PolarNavierStokes.perturb
  cases hp : el.Pext_data_pt with
  | none =>
    have hne : ¬ ((-1 : Int) = (j : Int)) := by omega
    simp [hne]
  | some value =>
    simp only [Option.map_some']
    split <;> ring

theorem PolarNavierStokes.pext_local_eqn_perturb
    (el : PolarNavierStokes.PolarNavierStokesTractionElement) (j : Nat) (h : ℚ) :
    PolarNavierStokes.pext_local_eqn (PolarNavierStokes.perturb el j h) =
      PolarNavierStokes.pext_local_eqn el := by
  unfold PolarNavierStokes.pext_local_eqn PolarNavierStokes.perturb
  cases el.Pext_data_pt <;> rfl

theorem PolarNavierStokes.test_function_body_residuals
    (el : PolarNavierStokes.PolarNavierStokesTractionElement) (flag ipt : Nat)
    (u0 x0 W : ℚ) (l : Nat) (S : PolarNavierStokes.Contribution) (i : Nat) :
    (PolarNavierStokes.test_function_body el flag ipt u0 x0 W l S).residuals i =
      S.residuals i +
        (if el.u_local_eqn l 0 ≥ 0 ∧ i = (el.u_local_eqn l 0).toNat then
          -((el.Boundary : ℚ) * el.Eta * 3 * (u0 / x0) * el.shape_at_knot ipt l * x0 *
              el.Alpha * W) +
            PolarNavierStokes.pext el * el.shape_at_knot ipt l * x0 * el.Alpha * W
        else 0) := by
  unfold PolarNavierStokes.test_function_body
  by_cases h0 : el.u_local_eqn l 0 ≥ 0
  · simp only [h0, if_true, true_and]
    by_cases hf : flag ≠ 0
    · simp only [hf, ne_eq, not_false_eq_true, if_true, PolarNavierStokes.add_entry,
        PolarNavierStokes.sub_entry]
      split_ifs <;> ring
    · simp only [hf, if_false, PolarNavierStokes.add_entry, PolarNavierStokes.sub_entry]
      split_ifs <;> ring
  · simp [h0]

theorem PolarNavierStokes.test_function_body_jacobian
    (el : PolarNavierStokes.PolarNavierStokesTractionElement) (flag ipt : Nat)
    (hflag : flag ≠ 0)
    (u0 x0 W : ℚ) (l : Nat) (S : PolarNavierStokes.Contribution) (i j : Nat) :
    (PolarNavierStokes.test_function_body el flag ipt u0 x0 W l S).jacobian i j =
      S.jacobian i j +
        (if el.u_local_eqn l 0 ≥ 0 ∧ i = (el.u_local_eqn l 0).toNat then
          -((el.Boundary : ℚ) * el.Eta * 3 *
              (PolarNavierStokes.shape_sum_of_unknown el ipt j (List.range el.nnode) / x0) *
              el.shape_at_knot ipt l * x0 * el.Alpha * W) +
            (if PolarNavierStokes.pext_local_eqn el = (j : Int) then
              el.shape_at_knot ipt l * x0 * el.Alpha * W else 0)
        else 0) := by
  unfold PolarNavierStokes.test_function_body
  by_cases h0 : el.u_local_eqn l 0 ≥ 0
  · simp only [h0, if_true, true_and, hflag, ne_eq, not_false_eq_true]
    have hiff := PolarNavierStokes.toNat_eq_iff (PolarNavierStokes.pext_local_eqn el) j
    by_cases hp : PolarNavierStokes.pext_local_eqn el ≥ 0
    · simp only [hp, if_true, PolarNavierStokes.add_matrix_entry,
        PolarNavierStokes.velocity_jacobian_loop,
        PolarNavierStokes.velocity_jacobian_fold]
      split_ifs <;> first | (exfalso; omega) | ring
    · simp only [hp, if_false, PolarNavierStokes.velocity_jacobian_loop,
        PolarNavierStokes.velocity_jacobian_fold]
      split_ifs <;> first | (exfalso; omega) | ring
  · simp [h0]

theorem PolarNavierStokes.mass_flux_body_residuals
    (el : PolarNavierStokes.PolarNavierStokesTractionElement) (flag ipt : Nat)
    (u0 x0 W : ℚ) (S : PolarNavierStokes.Contribution) (i : Nat) :
    (PolarNavierStokes.mass_flux_body el flag ipt u0 x0 W S).residuals i =
      S.residuals i +
        (if PolarNavierStokes.pext_local_eqn el ≥ 0 ∧
            i = (PolarNavierStokes.pext_local_eqn el).toNat then
          u0 * x0 * el.Alpha * W
        else 0) := by
  unfold PolarNavierStokes.mass_flux_body
  by_cases h0 : PolarNavierStokes.pext_local_eqn el ≥ 0
  · simp only [h0, if_true, true_and]
    by_cases hf : flag ≠ 0
    · simp only [hf, ne_eq, not_false_eq_true, if_true, PolarNavierStokes.add_entry]
      split_ifs <;> ring
    · simp only [hf, if_false, PolarNavierStokes.add_entry]
      split_ifs <;> ring
  · simp [h0]

theorem PolarNavierStokes.mass_flux_body_jacobian
    (el : PolarNavierStokes.PolarNavierStokesTractionElement) (flag ipt : Nat)
    (hflag : flag ≠ 0)
    (u0 x0 W : ℚ) (S : PolarNavierStokes.Contribution) (i j : Nat) :
    (PolarNavierStokes.mass_flux_body el flag ipt u0 x0 W S).jacobian i j =
      S.jacobian i j +
        (if PolarNavierStokes.pext_local_eqn el ≥ 0 ∧
            i = (PolarNavierStokes.pext_local_eqn el).toNat then
          PolarNavierStokes.shape_sum_of_unknown el ipt j (List.range el.nnode) * x0 *
            el.Alpha * W
        else 0) := by
  unfold PolarNavierStokes.mass_flux_body
  by_cases h0 : PolarNavierStokes.pext_local_eqn el ≥ 0
  · simp only [h0, if_true, true_and, hflag, ne_eq, not_false_eq_true,
      PolarNavierStokes.pressure_jacobian_loop, PolarNavierStokes.pressure_jacobian_fold]
  · simp [h0]

theorem PolarNavierStokes.shape_sum_perturb
    (el : PolarNavierStokes.PolarNavierStokesTractionElement) (ipt j k : Nat) (h : ℚ)
    (ls : List Nat) :
    PolarNavierStokes.shape_sum_of_unknown (PolarNavierStokes.perturb el k h) ipt j ls =
      PolarNavierStokes.shape_sum_of_unknown el ipt j ls := rfl

/-- One test function keeps the tangent relation between the run on the
element and the run on the perturbed element. -/
theorem PolarNavierStokes.test_function_body_tangent
    (el : PolarNavierStokes.PolarNavierStokesTractionElement) (flag ipt j : Nat) (h : ℚ)
    (hflag : flag ≠ 0) (u0 x0 W : ℚ) (l : Nat)
    (S S' : PolarNavierStokes.Contribution)
    (hT : PolarNavierStokes.tangent h j S S') :
    PolarNavierStokes.tangent h j
      (PolarNavierStokes.test_function_body el flag ipt u0 x0 W l S)
      (PolarNavierStokes.test_function_body (PolarNavierStokes.perturb el j h) flag ipt
        (u0 + h * PolarNavierStokes.shape_sum_of_unknown el ipt j (List.range el.nnode))
        x0 W l S') := by
  intro i
  have hi := hT i
  rw [PolarNavierStokes.test_function_body_residuals,
    PolarNavierStokes.test_function_body_residuals,
    PolarNavierStokes.test_function_body_jacobian _ _ _ hflag,
    PolarNavierStokes.pext_perturb]
  have e1 : (PolarNavierStokes.perturb el j h).u_local_eqn = el.u_local_eqn := rfl
  have e2 : (PolarNavierStokes.perturb el j h).Boundary = el.Boundary := rfl
  have e3 : (PolarNavierStokes.perturb el j h).Eta = el.Eta := rfl
  have e4 : (PolarNavierStokes.perturb el j h).shape_at_knot = el.shape_at_knot := rfl
  have e5 : (PolarNavierStokes.perturb el j h).Alpha = el.Alpha := rfl
  rw [e1, e2, e3, e4, e5]
  split_ifs <;> linear_combination hi

/-- The mass-flux block keeps the tangent relation. -/
theorem PolarNavierStokes.mass_flux_body_tangent
    (el : PolarNavierStokes.PolarNavierStokesTractionElement) (flag ipt j : Nat) (h : ℚ)
    (hflag : flag ≠ 0) (u0 x0 W : ℚ)
    (S S' : PolarNavierStokes.Contribution)
    (hT : PolarNavierStokes.tangent h j S S') :
    PolarNavierStokes.tangent h j
      (PolarNavierStokes.mass_flux_body el flag ipt u0 x0 W S)
      (PolarNavierStokes.mass_flux_body (PolarNavierStokes.perturb el j h) flag ipt
        (u0 + h * PolarNavierStokes.shape_sum_of_unknown el ipt j (List.range el.nnode))
        x0 W S') := by
  intro i
  have hi := hT i
  rw [PolarNavierStokes.mass_flux_body_residuals,
    PolarNavierStokes.mass_flux_body_residuals,
    PolarNavierStokes.mass_flux_body_jacobian _ _ _ hflag,
    PolarNavierStokes.pext_local_eqn_perturb]
  have e5 : (PolarNavierStokes.perturb el j h).Alpha = el.Alpha := rfl
  rw [e5]
  split_ifs <;> linear_combination hi

theorem PolarNavierStokes.foldl_test_function_tangent
    (el : PolarNavierStokes.PolarNavierStokesTractionElement) (flag ipt j : Nat) (h : ℚ)
    (hflag : flag ≠ 0) (u0 x0 W : ℚ) (ls : List Nat)
    (S S' : PolarNavierStokes.Contribution)
    (hT : PolarNavierStokes.tangent h j S S') :
    PolarNavierStokes.tangent h j
      (ls.foldl (fun acc l =>
        PolarNavierStokes.test_function_body el flag ipt u0 x0 W l acc) S)
      (ls.foldl (fun acc l =>
        PolarNavierStokes.test_function_body (PolarNavierStokes.perturb el j h) flag ipt
          (u0 + h * PolarNavierStokes.shape_sum_of_unknown el ipt j (List.range el.nnode))
          x0 W l acc) S') := by
  induction ls generalizing S S' with
  | nil => exact hT
  | cons l ls ih =>
    simp only [List.foldl_cons]
    exact ih _ _ (PolarNavierStokes.test_function_body_tangent el flag ipt j h hflag
      u0 x0 W l S S' hT)

theorem PolarNavierStokes.integration_point_body_tangent
    (el : PolarNavierStokes.PolarNavierStokesTractionElement) (flag ipt j : Nat) (h : ℚ)
    (hflag : flag ≠ 0) (hdim : 0 < el.Dim)
    (S S' : PolarNavierStokes.Contribution)
    (hT : PolarNavierStokes.tangent h j S S') :
    PolarNavierStokes.tangent h j
      (PolarNavierStokes.integration_point_body el flag ipt S)
      (PolarNavierStokes.integration_point_body (PolarNavierStokes.perturb el j h)
        flag ipt S') := by
  unfold PolarNavierStokes.integration_point_body
  simp only [PolarNavierStokes.entry0_interpolate_perturb el ipt j h hdim]
  exact PolarNavierStokes.mass_flux_body_tangent el flag ipt j h hflag _ _ _ _ _
    (PolarNavierStokes.foldl_test_function_tangent el flag ipt j h hflag _ _ _ _ S S' hT)

theorem PolarNavierStokes.fill_tangent
    (el : PolarNavierStokes.PolarNavierStokesTractionElement) (flag j : Nat) (h : ℚ)
    (hflag : flag ≠ 0) (hdim : 0 < el.Dim)
    (S S' : PolarNavierStokes.Contribution)
    (hT : PolarNavierStokes.tangent h j S S') :
    PolarNavierStokes.tangent h j
      (PolarNavierStokes.fill_in_generic_residual_contribution el S flag)
      (PolarNavierStokes.fill_in_generic_residual_contribution
        (PolarNavierStokes.perturb el j h) S' flag) := by
  unfold PolarNavierStokes.fill_in_generic_residual_contribution
  show PolarNavierStokes.tangent h j
    ((List.range el.nweight).foldl _ S) ((List.range el.nweight).foldl _ S')
  generalize List.range el.nweight = ipts
  induction ipts generalizing S S' with
  | nil => exact hT
  | cons ipt ipts ih =>
    simp only [List.foldl_cons]
    exact ih _ _ (PolarNavierStokes.integration_point_body_tangent el flag ipt j h hflag
      hdim S S' hT)

/-- The traction function does not enter `fill_in_generic_residual_contribution`. -/
theorem PolarNavierStokes.fill_independent_of_traction
    (el : PolarNavierStokes.PolarNavierStokesTractionElement)
    (f : Option (ℚ → List ℚ → List ℚ → List ℚ))
    (st : PolarNavierStokes.Contribution) (flag : Nat) :
    PolarNavierStokes.fill_in_generic_residual_contribution
        { el with Traction_fct_pt := f } st flag =
      PolarNavierStokes.fill_in_generic_residual_contribution el st flag := rfl

theorem PolarNavierStokes.sample_residual_entry :
    (PolarNavierStokes.fill_in_generic_residual_contribution
      PolarNavierStokes.sample_element PolarNavierStokes.zero_contribution 0).residuals 0 =
      11 / 2 := by
  simp [PolarNavierStokes.fill_in_generic_residual_contribution,
    PolarNavierStokes.integration_point_body, PolarNavierStokes.test_function_body_residuals,
    PolarNavierStokes.mass_flux_body_residuals, List.range_succ,
    PolarNavierStokes.sample_element, PolarNavierStokes.zero_contribution,
    PolarNavierStokes.pext_local_eqn, PolarNavierStokes.pext,
    PolarNavierStokes.entry0_interpolate]
  norm_num

theorem PolarNavierStokes.sample_jacobian_entry :
    (PolarNavierStokes.fill_in_generic_residual_contribution
      PolarNavierStokes.sample_element PolarNavierStokes.zero_contribution 1).jacobian 0 1 =
      -3 / 2 := by
  have h1 : (1 : Nat) ≠ 0 := by decide
  simp [PolarNavierStokes.fill_in_generic_residual_contribution,
    PolarNavierStokes.integration_point_body,
    PolarNavierStokes.test_function_body_jacobian _ _ _ h1,
    PolarNavierStokes.mass_flux_body_jacobian _ _ _ h1, List.range_succ,
    PolarNavierStokes.shape_sum_of_unknown, PolarNavierStokes.sample_element,
    PolarNavierStokes.zero_contribution, PolarNavierStokes.pext_local_eqn,
    PolarNavierStokes.entry0_interpolate]
  norm_num

/-- C19, evaluated on the sample elements: the two elements differ only in
their traction function, `get_traction` gives (7, 7) for one and (0, 0) for
the other, and yet `fill_in_generic_residual_contribution` produces the same
residuals for both (11/2 in the velocity equation of node 0): the traction
vector is computed and then not used. -/
theorem PolarNavierStokes.traction_does_not_enter_residuals :
    PolarNavierStokes.get_traction PolarNavierStokes.sample_element_with_traction 0
      [2, 0] [0, 0] = [7, 7] ∧
    PolarNavierStokes.get_traction PolarNavierStokes.sample_element 0 [2, 0] [0, 0] =
      [0, 0] ∧
    (PolarNavierStokes.fill_in_generic_residual_contribution
      PolarNavierStokes.sample_element_with_traction
      PolarNavierStokes.zero_contribution 0).residuals 0 = 11 / 2 ∧
    ∀ flag i,
      (PolarNavierStokes.fill_in_generic_residual_contribution
        PolarNavierStokes.sample_element_with_traction
        PolarNavierStokes.zero_contribution flag).residuals i =
      (PolarNavierStokes.fill_in_generic_residual_contribution
        PolarNavierStokes.sample_element
        PolarNavierStokes.zero_contribution flag).residuals i := by
  refine ⟨rfl, rfl, PolarNavierStokes.sample_residual_entry, ?_⟩
  intro flag i
  have h := PolarNavierStokes.fill_independent_of_traction PolarNavierStokes.sample_element
    (some (fun _ _ result => result.map (fun _ => 7)))
    PolarNavierStokes.zero_contribution flag
  exact congrArg (fun c => c.residuals i) h

/-- C20. With `flag != 0`, starting from a zero Jacobian, with a radius
`interpolated_x[0]` that is nonzero at every integration point (and vectors
that have an entry 0), in exact arithmetic: for every row `i` and every
column `j`, raising the unknown with local equation number `j` (a radial
nodal velocity or the external pressure) by any `h` changes residual `i` by
exactly `h` times the Jacobian entry `(i, j)` that the function wrote. The
residuals are affine in these unknowns, so this says that the entry is the
partial derivative of the added residual. -/
theorem PolarNavierStokes.jacobian_is_derivative_of_residuals
    (el : PolarNavierStokes.PolarNavierStokesTractionElement)
    (st : PolarNavierStokes.Contribution) (flag j : Nat) (h : ℚ)
    (hflag : flag ≠ 0)
    (hzero : ∀ a b, st.jacobian a b = 0)
    (_hx : ∀ ipt < el.nweight,
      PolarNavierStokes.entry0 (PolarNavierStokes.interpolate el el.nodal_position ipt) ≠ 0)
    (hdim : 0 < el.Dim) :
    ∀ i,
      (PolarNavierStokes.fill_in_generic_residual_contribution
          (PolarNavierStokes.perturb el j h) st flag).residuals i -
        (PolarNavierStokes.fill_in_generic_residual_contribution el st flag).residuals i =
      h * (PolarNavierStokes.fill_in_generic_residual_contribution el st flag).jacobian i j :=
  PolarNavierStokes.fill_tangent el flag j h hflag hdim st st
    (fun i => by rw [hzero, sub_self, mul_zero])

/-- C20, on the sample element: raising the radial velocity of node 1 by 3
changes the residual of the velocity equation of node 0 by 3 times the
Jacobian entry (0, 1), which is -3/2. -/
theorem PolarNavierStokes.jacobian_is_derivative_of_residuals_witness :
    (PolarNavierStokes.fill_in_generic_residual_contribution
        (PolarNavierStokes.perturb PolarNavierStokes.sample_element 1 3)
        PolarNavierStokes.zero_contribution 1).residuals 0 -
      (PolarNavierStokes.fill_in_generic_residual_contribution
        PolarNavierStokes.sample_element PolarNavierStokes.zero_contribution 1).residuals 0 =
    3 * (PolarNavierStokes.fill_in_generic_residual_contribution
        PolarNavierStokes.sample_element PolarNavierStokes.zero_contribution 1).jacobian 0 1 ∧
    (PolarNavierStokes.fill_in_generic_residual_contribution
        PolarNavierStokes.sample_element PolarNavierStokes.zero_contribution 1).jacobian 0 1 =
      -3 / 2 :=
  ⟨PolarNavierStokes.jacobian_is_derivative_of_residuals PolarNavierStokes.sample_element
    PolarNavierStokes.zero_contribution 1 1 3 (by decide) (fun _ _ => rfl)
    (by
      intro ipt _
      rw [PolarNavierStokes.entry0_interpolate _ _ _ (by decide)]
      simp [PolarNavierStokes.sample_element, List.range_succ])
    (by decide) 0, PolarNavierStokes.sample_jacobian_entry⟩

/-! ## Residuals only -/

theorem PolarNavierStokes.test_function_body_flag_zero
    (el : PolarNavierStokes.PolarNavierStokesTractionElement) (ipt : Nat)
    (u0 x0 W : ℚ) (l : Nat) (S : PolarNavierStokes.Contribution) :
    (PolarNavierStokes.test_function_body el 0 ipt u0 x0 W l S).jacobian = S.jacobian ∧
    (PolarNavierStokes.test_function_body el 0 ipt u0 x0 W l S).mass_matrix =
      S.mass_matrix := by
  unfold PolarNavierStokes.test_function_body
  by_cases h0 : el.u_local_eqn l 0 ≥ 0
  · simp [h0]
  · simp [h0]

theorem PolarNavierStokes.mass_flux_body_flag_zero
    (el : PolarNavierStokes.PolarNavierStokesTractionElement) (ipt : Nat)
    (u0 x0 W : ℚ) (S : PolarNavierStokes.Contribution) :
    (PolarNavierStokes.mass_flux_body el 0 ipt u0 x0 W S).jacobian = S.jacobian ∧
    (PolarNavierStokes.mass_flux_body el 0 ipt u0 x0 W S).mass_matrix = S.mass_matrix := by
  unfold PolarNavierStokes.mass_flux_body
  by_cases h0 : PolarNavierStokes.pext_local_eqn el ≥ 0
  · simp [h0]
  · simp [h0]

theorem PolarNavierStokes.foldl_test_function_flag_zero
    (el : PolarNavierStokes.PolarNavierStokesTractionElement) (ipt : Nat)
    (u0 x0 W : ℚ) (ls : List Nat) (S : PolarNavierStokes.Contribution) :
    (ls.foldl (fun acc l =>
        PolarNavierStokes.test_function_body el 0 ipt u0 x0 W l acc) S).jacobian =
      S.jacobian ∧
    (ls.foldl (fun acc l =>
        PolarNavierStokes.test_function_body el 0 ipt u0 x0 W l acc) S).mass_matrix =
      S.mass_matrix := by
  induction ls generalizing S with
  | nil => exact ⟨rfl, rfl⟩
  | cons l ls ih =>
    simp only [List.foldl_cons]
    obtain ⟨h1, h2⟩ := ih (PolarNavierStokes.test_function_body el 0 ipt u0 x0 W l S)
    obtain ⟨h3, h4⟩ := PolarNavierStokes.test_function_body_flag_zero el ipt u0 x0 W l S
    exact ⟨h1.trans h3, h2.trans h4⟩

theorem PolarNavierStokes.integration_point_body_flag_zero
    (el : PolarNavierStokes.PolarNavierStokesTractionElement) (ipt : Nat)
    (S : PolarNavierStokes.Contribution) :
    (PolarNavierStokes.integration_point_body el 0 ipt S).jacobian = S.jacobian ∧
    (PolarNavierStokes.integration_point_body el 0 ipt S).mass_matrix = S.mass_matrix := by
  unfold PolarNavierStokes.integration_point_body
  obtain ⟨h1, h2⟩ := PolarNavierStokes.mass_flux_body_flag_zero el ipt
    (PolarNavierStokes.entry0 (PolarNavierStokes.interpolate el el.nodal_value ipt))
    (PolarNavierStokes.entry0 (PolarNavierStokes.interpolate el el.nodal_position ipt))
    (el.weight ipt * el.J_eulerian_at_knot ipt)
    ((List.range el.nnode).foldl (fun acc l =>
      PolarNavierStokes.test_function_body el 0 ipt
        (PolarNavierStokes.entry0 (PolarNavierStokes.interpolate el el.nodal_value ipt))
        (PolarNavierStokes.entry0 (PolarNavierStokes.interpolate el el.nodal_position ipt))
        (el.weight ipt * el.J_eulerian_at_knot ipt) l acc) S)
  obtain ⟨h3, h4⟩ := PolarNavierStokes.foldl_test_function_flag_zero el ipt
    (PolarNavierStokes.entry0 (PolarNavierStokes.interpolate el el.nodal_value ipt))
    (PolarNavierStokes.entry0 (PolarNavierStokes.interpolate el el.nodal_position ipt))
    (el.weight ipt * el.J_eulerian_at_knot ipt) (List.range el.nnode) S
  exact ⟨h1.trans h3, h2.trans h4⟩

/-- C21. With `flag == 0`, `fill_in_generic_residual_contribution` leaves
the `jacobian` argument and the `mass_matrix` argument exactly as it found
them, for every element and every incoming content of the three arguments;
so `fill_in_contribution_to_residuals`, which passes flag 0 and the dummy
matrix, modifies no entry of the dummy matrix. -/
theorem PolarNavierStokes.flag_zero_computes_only_residuals
    (el : PolarNavierStokes.PolarNavierStokesTractionElement)
    (st : PolarNavierStokes.Contribution)
    (residuals : Nat → ℚ) (dummy_matrix : Nat → Nat → ℚ) :
    (PolarNavierStokes.fill_in_generic_residual_contribution el st 0).jacobian =
      st.jacobian ∧
    (PolarNavierStokes.fill_in_generic_residual_contribution el st 0).mass_matrix =
      st.mass_matrix ∧
    (PolarNavierStokes.fill_in_contribution_to_residuals el residuals dummy_matrix).jacobian =
      dummy_matrix ∧
    (PolarNavierStokes.fill_in_contribution_to_residuals el residuals
        dummy_matrix).mass_matrix = dummy_matrix := by
  have key : ∀ (ipts : List Nat) (S : PolarNavierStokes.Contribution),
      (ipts.foldl (fun acc ipt =>
          PolarNavierStokes.integration_point_body el 0 ipt acc) S).jacobian = S.jacobian ∧
      (ipts.foldl (fun acc ipt =>
          PolarNavierStokes.integration_point_body el 0 ipt acc) S).mass_matrix =
        S.mass_matrix := by
    intro ipts
    induction ipts with
    | nil => exact fun S => ⟨rfl, rfl⟩
    | cons ipt ipts ih =>
      intro S
      simp only [List.foldl_cons]
      obtain ⟨h1, h2⟩ := ih (PolarNavierStokes.integration_point_body el 0 ipt S)
      obtain ⟨h3, h4⟩ := PolarNavierStokes.integration_point_body_flag_zero el ipt S
      exact ⟨h1.trans h3, h2.trans h4⟩
  refine ⟨(key _ st).1, (key _ st).2, ?_, ?_⟩
  · exact (key _ _).1
  · exact (key _ _).2

end oomph
